import Mathlib

/-!
Verification of the photo-gallery repository's specification against a
shallow embedding of its code.

The embedding covers:
  * the image-dimension probe of `scripts/generate-gallery.mjs`
    (`parsePngDimensions`, `parseJpegDimensions`),
  * the photo-entry reconciler and manifest assembly of the same script
    (`classifyBaseName`, `buildPhotosFromFiles`, `normalizeAssetPath`,
    the relevant slice of `main`),
  * the HTTP server of `server.ts` (startup password handling, cookie
    parsing, the request handler, `resolvePath`).

Byte buffers are modelled as `List Nat` (each element one byte), strings
as Lean `String` with character-list helpers that mirror the JavaScript
string operations used by the code.  Fallible code returns `Except`.
-/

namespace Gallery

/-! ### Byte-buffer primitives (Node `Buffer` reads)

`Buffer.readUInt16BE` / `readUInt32BE` throw a `RangeError` when the read
would run past the end of the buffer; here they return `none` in that
case. In-bounds indexing `buffer[i]` is `List.getD` (all call sites in the
source are guarded by a bounds check). -/

def readUInt16BE (buf : List Nat) (i : Nat) : Option Nat :=
  if i + 1 < buf.length then some (buf.getD i 0 * 256 + buf.getD (i + 1) 0) else none

def readUInt32BE (buf : List Nat) (i : Nat) : Option Nat :=
  if i + 3 < buf.length then
    some (buf.getD i 0 * 16777216 + buf.getD (i + 1) 0 * 65536 +
          buf.getD (i + 2) 0 * 256 + buf.getD (i + 3) 0)
  else none

/-! ### PNG probe (`parsePngDimensions` in generate-gallery.mjs) -/

inductive PngErr where
  | invalidSignature
  | outOfRange
deriving DecidableEq, Repr

def PNG_SIGNATURE : List Nat := [0x89, 0x50, 0x4e, 0x47, 0x0d, 0x0a, 0x1a, 0x0a]

/-- `parsePngDimensions(buffer)`: check the 8-byte signature
(`buffer.slice(0, 8).equals(PNG_SIGNATURE)`; a short buffer yields a short
slice, which fails the comparison), then read big-endian 32-bit width at
offset 16 and height at offset 20.  `outOfRange` models the `RangeError`
Node throws on an out-of-bounds `readUInt32BE`. -/
def parsePngDimensions (buf : List Nat) : Except PngErr (Nat × Nat) :=
  if buf.take 8 ≠ PNG_SIGNATURE then .error .invalidSignature
  else
    match readUInt32BE buf 16 with
    | none => .error .outOfRange
    | some width =>
      match readUInt32BE buf 20 with
      | none => .error .outOfRange
      | some height => .ok (width, height)

/-! ### JPEG probe (`parseJpegDimensions` in generate-gallery.mjs) -/

inductive JpegErr where
  | invalidHeader
  | failedToLocate
  | outOfRange
  | outOfFuel
deriving DecidableEq, Repr

def JPEG_SOF_MARKERS : List Nat :=
  [0xc0, 0xc1, 0xc2, 0xc3, 0xc5, 0xc6, 0xc7, 0xc9, 0xca, 0xcb, 0xcd, 0xce, 0xcf]

/-- Length of the run of `0xff` bytes at the head of a list. -/
def ffRun : List Nat → Nat
  | [] => 0
  | b :: t => if b = 0xff then ffRun t + 1 else 0

/-- The inner `while (offset < length && buffer[offset] === 0xff) offset += 1`
loop: skip the run of `0xff` padding bytes starting at `offset`. -/
def skipFF (buf : List Nat) (offset : Nat) : Nat :=
  offset + ffRun (buf.drop offset)

/-- The scan loop of `parseJpegDimensions`, with explicit fuel standing in
for the unbounded `while (offset < length)` loop; `outOfFuel` marks fuel
exhaustion (proved unreachable for the fuel used by `parseJpegDimensions`).
All offset arithmetic matches the source; in the skipped-segment branch the
new offset is `offset + 2 + (segmentLength - 2)` computed over `Nat`, which
agrees with the JavaScript value because the marker and length reads put
`offset + 2 ≥ 2` before the subtraction. -/
def jpegScan (buf : List Nat) : Nat → Nat → Except JpegErr (Nat × Nat)
  | fuel, offset =>
    if offset < buf.length then
      match fuel with
      | 0 => .error .outOfFuel
      | fuel + 1 =>
        let o1 := skipFF buf offset
        if o1 ≥ buf.length then .error .failedToLocate
        else
          let marker := buf.getD o1 0
          let o2 := o1 + 1
          if marker = 0xd9 ∨ marker = 0xda then .error .failedToLocate
          else
            match readUInt16BE buf o2 with
            | none => .error .outOfRange
            | some segmentLength =>
              let o3 := o2 + 2
              if marker ∈ JPEG_SOF_MARKERS then
                if o3 + 5 > buf.length then .error .failedToLocate
                else
                  match readUInt16BE buf (o3 + 1), readUInt16BE buf (o3 + 3) with
                  | some height, some width => .ok (width, height)
                  | _, _ => .error .outOfRange
              else
                jpegScan buf fuel (o3 + segmentLength - 2)
    else .error .failedToLocate

/-- `parseJpegDimensions(buffer)`: check the SOI marker `0xffd8` at offset 0,
then scan from offset 2.  Fuel `buf.length + 1` is sufficient because every
iteration strictly increases the offset (theorem `jpegScan_no_outOfFuel`). -/
def parseJpegDimensions (buf : List Nat) : Except JpegErr (Nat × Nat) :=
  match readUInt16BE buf 0 with
  | none => .error .outOfRange
  | some soi =>
    if soi ≠ 0xffd8 then .error .invalidHeader
    else jpegScan buf (buf.length + 1) 2

/-! ### Structured JPEG segments, used to state claim C4 -/

/-- A non-SOF JPEG segment as laid out in the byte stream: `0xff`, the
marker byte, a 2-byte big-endian length covering the length field plus the
payload, then the payload. -/
structure JpegSeg where
  marker : Nat
  payload : List Nat

def segBytes (s : JpegSeg) : List Nat :=
  0xff :: s.marker :: (s.payload.length + 2) / 256 :: (s.payload.length + 2) % 256 :: s.payload

/-- Well-formedness of a segment the scan is expected to skip: the marker is
a real marker byte (not `0xff` padding), is not a start-of-frame code, is not
EOI/SOS, and the segment length fits the 16-bit length field. -/
def goodSkipSeg (s : JpegSeg) : Prop :=
  s.marker ≠ 0xff ∧ s.marker ∉ JPEG_SOF_MARKERS ∧ s.marker ≠ 0xd9 ∧ s.marker ≠ 0xda ∧
    s.payload.length + 2 < 65536

instance (s : JpegSeg) : Decidable (goodSkipSeg s) := by
  unfold goodSkipSeg; infer_instance

/-- Byte layout of a start-of-frame segment head: `0xff`, the SOF marker,
an arbitrary 2-byte length field (the scan reads it but does not use it to
locate the dimensions), the precision byte, then big-endian height and
width. -/
def sofBytes (m l1 l2 prec hh hl wh wl : Nat) (rest : List Nat) : List Nat :=
  0xff :: m :: l1 :: l2 :: prec :: hh :: hl :: wh :: wl :: rest

/-! ### Helper lemmas about indexing through `List.drop` -/

lemma getD_of_drop {buf l : List Nat} {offset : Nat} (h : buf.drop offset = l)
    (i d : Nat) : buf.getD (offset + i) d = l.getD i d := by
  subst h
  simp [List.getD_eq_getElem?_getD, List.getElem?_drop]

lemma length_of_drop {buf l : List Nat} {offset : Nat} (h : buf.drop offset = l)
    (hl : l ≠ []) : buf.length = offset + l.length := by
  have hlen : l.length = buf.length - offset := by
    rw [← h, List.length_drop]
  have hpos : 0 < l.length := List.length_pos.mpr hl
  omega

lemma drop_of_drop {buf l₁ l₂ : List Nat} {offset : Nat}
    (h : buf.drop offset = l₁ ++ l₂) : buf.drop (offset + l₁.length) = l₂ := by
  have h2 : (buf.drop offset).drop l₁.length = l₂ := by
    rw [h, List.drop_left]
  rwa [List.drop_drop] at h2

set_option maxRecDepth 8192

/-! ### Behaviour of one scan iteration -/

lemma ffRun_cons_marker {m : Nat} (hm : m ≠ 0xff) (t : List Nat) :
    ffRun (0xff :: m :: t) = 1 := by
  simp [ffRun, hm]

lemma sof_marker_facts {m : Nat} (hm : m ∈ JPEG_SOF_MARKERS) :
    m ≠ 0xff ∧ m ≠ 0xd9 ∧ m ≠ 0xda := by
  fin_cases hm <;> simp

/-- One iteration of the scan over a well-formed non-SOF segment advances
the offset by exactly the byte length of that segment. -/
lemma jpegScan_skip_step {buf : List Nat} {offset : Nat} (fuel : Nat)
    {s : JpegSeg} {rest : List Nat}
    (hdrop : buf.drop offset = segBytes s ++ rest) (hs : goodSkipSeg s) :
    jpegScan buf (fuel + 1) offset = jpegScan buf fuel (offset + (segBytes s).length) := by
  obtain ⟨hff, hsof, hd9, hda, _⟩ := hs
  have hlen : buf.length = offset + (segBytes s ++ rest).length :=
    length_of_drop hdrop (by simp [segBytes])
  have hlenseg : (segBytes s ++ rest).length = 4 + s.payload.length + rest.length := by
    simp [segBytes]; omega
  have hget := getD_of_drop hdrop
  have h0 : buf.getD (offset + 0) 0 = 0xff := by
    rw [hget]; simp [segBytes]
  have h1 : buf.getD (offset + 1) 0 = s.marker := by
    rw [hget]; simp [segBytes]
  have h2 : buf.getD (offset + 2) 0 = (s.payload.length + 2) / 256 := by
    rw [hget]; simp [segBytes]
  have h3 : buf.getD (offset + 3) 0 = (s.payload.length + 2) % 256 := by
    rw [hget]; simp [segBytes]
  have hskip : skipFF buf offset = offset + 1 := by
    unfold skipFF
    rw [hdrop]
    have : segBytes s ++ rest = 0xff :: s.marker :: ((s.payload.length + 2) / 256 ::
        (s.payload.length + 2) % 256 :: s.payload ++ rest) := by
      simp [segBytes]
    rw [this, ffRun_cons_marker hff]
  rw [jpegScan]
  have hoff : offset < buf.length := by omega
  rw [if_pos hoff]
  simp only [hskip]
  have ho1 : ¬ offset + 1 ≥ buf.length := by omega
  rw [if_neg ho1, h1]
  rw [if_neg (by push_neg; exact ⟨hd9, hda⟩)]
  have hread : readUInt16BE buf (offset + 1 + 1) = some (s.payload.length + 2) := by
    unfold readUInt16BE
    rw [if_pos (by omega)]
    have e2 : offset + 1 + 1 = offset + 2 := by omega
    have e3 : offset + 1 + 1 + 1 = offset + 3 := by omega
    rw [e2, e3, h2, h3]
    simp only [Option.some.injEq]
    omega
  rw [hread]
  simp only []
  rw [if_neg hsof]
  congr 1
  simp [segBytes]
  omega

/-- Arriving at a well-formed SOF segment head, the scan returns the
width/height encoded at relative offsets +3/+1 of the segment body. -/
lemma jpegScan_sof {buf : List Nat} {offset : Nat} (fuel : Nat)
    {m l1 l2 prec hh hl wh wl : Nat} {rest : List Nat}
    (hdrop : buf.drop offset = sofBytes m l1 l2 prec hh hl wh wl rest)
    (hm : m ∈ JPEG_SOF_MARKERS) :
    jpegScan buf (fuel + 1) offset = .ok (wh * 256 + wl, hh * 256 + hl) := by
  obtain ⟨hff, hd9, hda⟩ := sof_marker_facts hm
  have hlen : buf.length = offset + (sofBytes m l1 l2 prec hh hl wh wl rest).length :=
    length_of_drop hdrop (by simp [sofBytes])
  have hlenseg : (sofBytes m l1 l2 prec hh hl wh wl rest).length = 9 + rest.length := by
    simp [sofBytes]; omega
  have hget := getD_of_drop hdrop
  have h1 : buf.getD (offset + 1) 0 = m := by rw [hget]; simp [sofBytes]
  have h5 : buf.getD (offset + 5) 0 = hh := by rw [hget]; simp [sofBytes]
  have h6 : buf.getD (offset + 6) 0 = hl := by rw [hget]; simp [sofBytes]
  have h7 : buf.getD (offset + 7) 0 = wh := by rw [hget]; simp [sofBytes]
  have h8 : buf.getD (offset + 8) 0 = wl := by rw [hget]; simp [sofBytes]
  have hskip : skipFF buf offset = offset + 1 := by
    unfold skipFF
    rw [hdrop]
    have : sofBytes m l1 l2 prec hh hl wh wl rest =
        0xff :: m :: (l1 :: l2 :: prec :: hh :: hl :: wh :: wl :: rest) := by
      simp [sofBytes]
    rw [this, ffRun_cons_marker hff]
  rw [jpegScan]
  have hoff : offset < buf.length := by omega
  rw [if_pos hoff]
  simp only [hskip]
  rw [if_neg (by omega : ¬ offset + 1 ≥ buf.length), h1]
  rw [if_neg (by push_neg; exact ⟨hd9, hda⟩)]
  have hread : readUInt16BE buf (offset + 1 + 1) = some (l1 * 256 + l2) := by
    unfold readUInt16BE
    rw [if_pos (by omega)]
    have e2 : offset + 1 + 1 = offset + 2 := by omega
    have e3 : offset + 1 + 1 + 1 = offset + 3 := by omega
    rw [e2, e3]
    congr 2
    · rw [hget]; simp [sofBytes]
    · rw [hget]; simp [sofBytes]
  rw [hread]
  simp only []
  rw [if_pos hm]
  rw [if_neg (by omega : ¬ offset + 1 + 1 + 2 + 5 > buf.length)]
  have hreadH : readUInt16BE buf (offset + 1 + 1 + 2 + 1) = some (hh * 256 + hl) := by
    unfold readUInt16BE
    rw [if_pos (by omega)]
    have e5 : offset + 1 + 1 + 2 + 1 = offset + 5 := by omega
    have e6 : offset + 1 + 1 + 2 + 1 + 1 = offset + 6 := by omega
    rw [e5, e6, h5, h6]
  have hreadW : readUInt16BE buf (offset + 1 + 1 + 2 + 3) = some (wh * 256 + wl) := by
    unfold readUInt16BE
    rw [if_pos (by omega)]
    have e7 : offset + 1 + 1 + 2 + 3 = offset + 7 := by omega
    have e8 : offset + 1 + 1 + 2 + 3 + 1 = offset + 8 := by omega
    rw [e7, e8, h7, h8]
  rw [hreadH, hreadW]

/-- Flattened byte stream of a list of segments. -/
def segsFlat (segs : List JpegSeg) : List Nat := (segs.map segBytes).flatten

lemma segsFlat_nil : segsFlat [] = [] := rfl

lemma segsFlat_cons (s : JpegSeg) (t : List JpegSeg) :
    segsFlat (s :: t) = segBytes s ++ segsFlat t := by
  simp [segsFlat]

lemma length_le_segsFlat (segs : List JpegSeg) : segs.length ≤ (segsFlat segs).length := by
  induction segs with
  | nil => simp [segsFlat]
  | cons s t ih =>
    rw [segsFlat_cons]
    simp only [List.length_append, List.length_cons]
    have : 1 ≤ (segBytes s).length := by simp [segBytes]
    omega

/-- Scanning over any run of well-formed non-SOF segments advances the
offset past all of them, one fuel unit per segment. -/
lemma jpegScan_skip_chain (segs : List JpegSeg) :
    ∀ (buf : List Nat) (offset fuel : Nat) (tail : List Nat),
    buf.drop offset = segsFlat segs ++ tail →
    (∀ s ∈ segs, goodSkipSeg s) →
    jpegScan buf (fuel + segs.length) offset
      = jpegScan buf fuel (offset + (segsFlat segs).length) := by
  induction segs with
  | nil =>
    intro buf offset fuel tail _ _
    simp [segsFlat]
  | cons s t ih =>
    intro buf offset fuel tail hdrop hgood
    rw [segsFlat_cons] at hdrop
    rw [List.append_assoc] at hdrop
    have hstep := jpegScan_skip_step (fuel + t.length) hdrop (hgood s (by simp))
    have hnext : buf.drop (offset + (segBytes s).length) = segsFlat t ++ tail :=
      drop_of_drop hdrop
    have hrec := ih buf (offset + (segBytes s).length) fuel tail hnext
      (fun x hx => hgood x (by simp [hx]))
    have hfuel : fuel + (s :: t).length = (fuel + t.length) + 1 := by simp; omega
    rw [hfuel, hstep, hrec]
    congr 1
    rw [segsFlat_cons]
    simp only [List.length_append]
    omega

/-- With at least `buf.length - offset` fuel the scan never exhausts its
fuel: every iteration strictly increases the offset, even when a segment
declares a length of 0 or 1. -/
lemma jpegScan_no_outOfFuel (buf : List Nat) :
    ∀ fuel offset, buf.length ≤ offset + fuel →
    jpegScan buf fuel offset ≠ .error .outOfFuel := by
  intro fuel
  induction fuel with
  | zero =>
    intro offset hle
    rw [jpegScan]
    rw [if_neg (by omega)]
    intro h
    exact JpegErr.noConfusion (Except.error.inj h)
  | succ fuel ih =>
    intro offset hle
    rw [jpegScan]
    by_cases hoff : offset < buf.length
    · rw [if_pos hoff]
      simp only []
      set o1 := skipFF buf offset with ho1def
      have ho1ge : offset ≤ o1 := by
        rw [ho1def]
        unfold skipFF
        omega
      by_cases h1 : o1 ≥ buf.length
      · rw [if_pos h1]; intro h; exact JpegErr.noConfusion (Except.error.inj h)
      · rw [if_neg h1]
        by_cases h2 : buf.getD o1 0 = 0xd9 ∨ buf.getD o1 0 = 0xda
        · rw [if_pos h2]; intro h; exact JpegErr.noConfusion (Except.error.inj h)
        · rw [if_neg h2]
          cases hread : readUInt16BE buf (o1 + 1) with
          | none =>
            intro h; exact JpegErr.noConfusion (Except.error.inj h)
          | some segmentLength =>
            simp only []
            by_cases h3 : buf.getD o1 0 ∈ JPEG_SOF_MARKERS
            · rw [if_pos h3]
              by_cases h4 : o1 + 1 + 2 + 5 > buf.length
              · rw [if_pos h4]; intro h; exact JpegErr.noConfusion (Except.error.inj h)
              · rw [if_neg h4]
                cases hH : readUInt16BE buf (o1 + 1 + 2 + 1) with
                | none =>
                  cases hW : readUInt16BE buf (o1 + 1 + 2 + 3) <;>
                    · intro h; exact JpegErr.noConfusion (Except.error.inj h)
                | some hgt =>
                  cases hW : readUInt16BE buf (o1 + 1 + 2 + 3) with
                  | none =>
                    intro h; exact JpegErr.noConfusion (Except.error.inj h)
                  | some wdt =>
                    intro h; exact Except.noConfusion h
            · rw [if_neg h3]
              apply ih
              omega
    · rw [if_neg hoff]
      intro h; exact JpegErr.noConfusion (Except.error.inj h)

lemma parseJpeg_soi (rest : List Nat) :
    parseJpegDimensions (0xff :: 0xd8 :: rest)
      = jpegScan (0xff :: 0xd8 :: rest) ((0xff :: 0xd8 :: rest).length + 1) 2 := by
  unfold parseJpegDimensions
  have h : readUInt16BE (0xff :: 0xd8 :: rest) 0 = some 0xffd8 := by
    unfold readUInt16BE
    rw [if_pos (by simp)]
    norm_num [List.getD]
  rw [h]
  simp only []
  rw [if_neg (by omega : ¬ (0xffd8 : Nat) ≠ 0xffd8)]

/-- C4: a buffer that starts with the SOI marker `0xffd8`, continues with
any run of well-formed non-SOF segments, and then reaches a start-of-frame
segment yields the height read big-endian at relative offset +1 and the
width at relative offset +3 of that segment body, regardless of the number
and lengths of the preceding segments; the probe fails with an error when
the SOI is wrong, when the scan reaches an EOI (0xd9) or SOS (0xda) marker,
or when it exhausts the buffer without finding a start-of-frame marker. -/
theorem jpeg_probe_dimensions :
    (∀ (segs : List JpegSeg) (m l1 l2 prec hh hl wh wl : Nat) (rest : List Nat),
      (∀ s ∈ segs, goodSkipSeg s) → m ∈ JPEG_SOF_MARKERS →
      parseJpegDimensions
          (0xff :: 0xd8 :: (segsFlat segs ++ sofBytes m l1 l2 prec hh hl wh wl rest))
        = .ok (wh * 256 + wl, hh * 256 + hl))
    ∧ (∀ (b0 b1 : Nat) (rest : List Nat), b0 * 256 + b1 ≠ 0xffd8 →
      parseJpegDimensions (b0 :: b1 :: rest) = .error .invalidHeader)
    ∧ (∀ (segs : List JpegSeg) (m : Nat) (rest : List Nat),
      (∀ s ∈ segs, goodSkipSeg s) → (m = 0xd9 ∨ m = 0xda) →
      parseJpegDimensions (0xff :: 0xd8 :: (segsFlat segs ++ 0xff :: m :: rest))
        = .error .failedToLocate)
    ∧ (∀ (segs : List JpegSeg), (∀ s ∈ segs, goodSkipSeg s) →
      parseJpegDimensions (0xff :: 0xd8 :: segsFlat segs) = .error .failedToLocate) := by
  refine ⟨?_, ?_, ?_, ?_⟩
  · intro segs m l1 l2 prec hh hl wh wl rest hgood hm
    rw [parseJpeg_soi]
    set buf := 0xff :: 0xd8 :: (segsFlat segs ++ sofBytes m l1 l2 prec hh hl wh wl rest)
      with hbuf
    have hdrop2 : buf.drop 2 = segsFlat segs ++ sofBytes m l1 l2 prec hh hl wh wl rest := by
      rw [hbuf]
      rfl
    have hsegle := length_le_segsFlat segs
    have hk : buf.length + 1 = (buf.length - segs.length) + 1 + segs.length := by
      have : segs.length ≤ buf.length := by
        rw [hbuf]
        simp only [List.length_cons, List.length_append]
        omega
      omega
    rw [hk, jpegScan_skip_chain segs buf 2 (buf.length - segs.length + 1) _ hdrop2 hgood]
    exact jpegScan_sof (buf.length - segs.length) (drop_of_drop hdrop2) hm
  · intro b0 b1 rest hne
    unfold parseJpegDimensions
    have h : readUInt16BE (b0 :: b1 :: rest) 0 = some (b0 * 256 + b1) := by
      unfold readUInt16BE
      rw [if_pos (by simp)]
      rfl
    rw [h]
    simp only []
    rw [if_pos hne]
  · intro segs m rest hgood hm
    rw [parseJpeg_soi]
    set buf := 0xff :: 0xd8 :: (segsFlat segs ++ 0xff :: m :: rest) with hbuf
    have hdrop2 : buf.drop 2 = segsFlat segs ++ 0xff :: m :: rest := by
      rw [hbuf]; rfl
    have hsegle := length_le_segsFlat segs
    have hk : buf.length + 1 = (buf.length - segs.length) + 1 + segs.length := by
      have : segs.length ≤ buf.length := by
        rw [hbuf]
        simp only [List.length_cons, List.length_append]
        omega
      omega
    rw [hk, jpegScan_skip_chain segs buf 2 (buf.length - segs.length + 1) _ hdrop2 hgood]
    have hdropT : buf.drop (2 + (segsFlat segs).length) = 0xff :: m :: rest :=
      drop_of_drop hdrop2
    have hmff : m ≠ 0xff := by omega
    have hlen : buf.length = 2 + (segsFlat segs).length + (2 + rest.length) := by
      have := length_of_drop hdropT (by simp)
      simp only [List.length_cons] at this
      omega
    have hget := getD_of_drop hdropT
    rw [jpegScan]
    rw [if_pos (by omega : 2 + (segsFlat segs).length < buf.length)]
    simp only []
    have hskip : skipFF buf (2 + (segsFlat segs).length) = 2 + (segsFlat segs).length + 1 := by
      unfold skipFF
      rw [hdropT, ffRun_cons_marker hmff]
    rw [hskip]
    rw [if_neg (by omega : ¬ 2 + (segsFlat segs).length + 1 ≥ buf.length)]
    have h1 : buf.getD (2 + (segsFlat segs).length + 1) 0 = m := by
      rw [hget]; simp
    rw [h1, if_pos hm]
  · intro segs hgood
    rw [parseJpeg_soi]
    set buf := 0xff :: 0xd8 :: segsFlat segs with hbuf
    have hdrop2 : buf.drop 2 = segsFlat segs ++ [] := by
      rw [hbuf]; simp
    have hsegle := length_le_segsFlat segs
    have hk : buf.length + 1 = (buf.length - segs.length) + 1 + segs.length := by
      have : segs.length ≤ buf.length := by
        rw [hbuf]
        simp only [List.length_cons]
        omega
      omega
    rw [hk, jpegScan_skip_chain segs buf 2 (buf.length - segs.length + 1) _ hdrop2 hgood]
    have hlen : buf.length = 2 + (segsFlat segs).length := by
      rw [hbuf]; simp; omega
    rw [jpegScan]
    rw [if_neg (by omega : ¬ 2 + (segsFlat segs).length < buf.length)]

/-- C4 witness: a concrete JPEG byte stream — SOI, one APP0 segment with a
2-byte payload, then an SOF0 segment declaring height 2 and width 3 — is
parsed to width 3 and height 2. -/
theorem jpeg_probe_dimensions_witness :
    (∀ s ∈ [JpegSeg.mk 0xe0 [0, 0]], goodSkipSeg s) ∧ (0xc0 ∈ JPEG_SOF_MARKERS) ∧
    parseJpegDimensions
        (0xff :: 0xd8 :: (segsFlat [JpegSeg.mk 0xe0 [0, 0]] ++ sofBytes 0xc0 0 17 8 0 2 0 3 []))
      = .ok (3, 2) := by
  refine ⟨by decide, by decide, ?_⟩
  have h := jpeg_probe_dimensions.1 [JpegSeg.mk 0xe0 [0, 0]] 0xc0 0 17 8 0 2 0 3 []
    (by decide) (by decide)
  simpa using h

/-- C10: the JPEG scan terminates on every finite buffer: the fuelled
embedding of the `while` loop never exhausts its fuel, because each
iteration strictly increases the scan offset even when a segment declares
a length of 0 or 1 (where the advance `segmentLength - 2` is negative). -/
theorem jpeg_scan_terminates (buf : List Nat) :
    parseJpegDimensions buf ≠ .error .outOfFuel := by
  unfold parseJpegDimensions
  cases h : readUInt16BE buf 0 with
  | none => intro hc; exact JpegErr.noConfusion (Except.error.inj hc)
  | some soi =>
    simp only []
    by_cases hsoi : soi ≠ 0xffd8
    · rw [if_pos hsoi]; intro hc; exact JpegErr.noConfusion (Except.error.inj hc)
    · rw [if_neg hsoi]
      exact jpegScan_no_outOfFuel buf (buf.length + 1) 2 (by omega)

/-- C5: a buffer whose first 8 bytes equal the PNG signature and which is
long enough for the IHDR data yields width = the big-endian 32-bit value at
offset 16 and height = the value at offset 20; a signature mismatch (which
includes every buffer shorter than 8 bytes) or a buffer too short for the
reads fails with an error. -/
theorem png_probe_dimensions :
    (∀ buf : List Nat, buf.take 8 = PNG_SIGNATURE → 24 ≤ buf.length →
      parsePngDimensions buf = .ok
        (buf.getD 16 0 * 16777216 + buf.getD 17 0 * 65536 +
           buf.getD 18 0 * 256 + buf.getD 19 0,
         buf.getD 20 0 * 16777216 + buf.getD 21 0 * 65536 +
           buf.getD 22 0 * 256 + buf.getD 23 0))
    ∧ (∀ buf : List Nat, buf.take 8 ≠ PNG_SIGNATURE →
      parsePngDimensions buf = .error .invalidSignature)
    ∧ (∀ buf : List Nat, buf.length < 24 →
      ∃ e, parsePngDimensions buf = .error e) := by
  refine ⟨?_, ?_, ?_⟩
  · intro buf hsig hlen
    unfold parsePngDimensions
    rw [if_neg (by simp [hsig])]
    have h16 : readUInt32BE buf 16 = some (buf.getD 16 0 * 16777216 +
        buf.getD 17 0 * 65536 + buf.getD 18 0 * 256 + buf.getD 19 0) := by
      unfold readUInt32BE
      rw [if_pos (by omega)]
    have h20 : readUInt32BE buf 20 = some (buf.getD 20 0 * 16777216 +
        buf.getD 21 0 * 65536 + buf.getD 22 0 * 256 + buf.getD 23 0) := by
      unfold readUInt32BE
      rw [if_pos (by omega)]
    rw [h16]
    simp only []
    rw [h20]
  · intro buf hsig
    unfold parsePngDimensions
    rw [if_pos hsig]
  · intro buf hlen
    by_cases hsig : buf.take 8 ≠ PNG_SIGNATURE
    · refine ⟨.invalidSignature, ?_⟩
      unfold parsePngDimensions
      rw [if_pos hsig]
    · push_neg at hsig
      refine ⟨.outOfRange, ?_⟩
      unfold parsePngDimensions
      rw [if_neg (by simp [hsig])]
      have h20 : readUInt32BE buf 20 = none := by
        unfold readUInt32BE
        rw [if_neg (by omega)]
      by_cases h16b : 16 + 3 < buf.length
      · have h16 : readUInt32BE buf 16 = some (buf.getD 16 0 * 16777216 +
            buf.getD 17 0 * 65536 + buf.getD 18 0 * 256 + buf.getD 19 0) := by
          unfold readUInt32BE
          rw [if_pos h16b]
        rw [h16]
        simp only []
        rw [h20]
      · have h16 : readUInt32BE buf 16 = none := by
          unfold readUInt32BE
          rw [if_neg h16b]
        rw [h16]

/-- C5 witness: a concrete 24-byte buffer — the PNG signature, 8 filler
bytes, then width 5 and height 7 — parses to `(5, 7)`. -/
theorem png_probe_dimensions_witness :
    ((PNG_SIGNATURE ++ [0, 0, 0, 13, 73, 72, 68, 82, 0, 0, 0, 5, 0, 0, 0, 7]).take 8
        = PNG_SIGNATURE) ∧
    24 ≤ (PNG_SIGNATURE ++ [0, 0, 0, 13, 73, 72, 68, 82, 0, 0, 0, 5, 0, 0, 0, 7]).length ∧
    parsePngDimensions (PNG_SIGNATURE ++ [0, 0, 0, 13, 73, 72, 68, 82, 0, 0, 0, 5, 0, 0, 0, 7])
      = .ok (5, 7) := by
  refine ⟨by decide, by decide, ?_⟩
  have h := png_probe_dimensions.1
    (PNG_SIGNATURE ++ [0, 0, 0, 13, 73, 72, 68, 82, 0, 0, 0, 5, 0, 0, 0, 7])
    (by decide) (by decide)
  simpa using h

/-! ### String helpers mirroring the JavaScript string operations

All helpers work on the character list of a `String` with structural
recursion, so concrete instances evaluate inside the kernel.  They model
the ASCII behaviour of the JavaScript operations used by the code (the
repository's route strings, cookie names, suffixes and option values are
ASCII). -/

/-- JavaScript `String.prototype.trim` (ASCII whitespace). -/
def trimStr (s : String) : String :=
  (((s.toList.dropWhile Char.isWhitespace).reverse.dropWhile Char.isWhitespace).reverse).asString

/-- JavaScript `String.prototype.startsWith`. -/
def strStartsWith (s pre : String) : Bool :=
  pre.toList.isPrefixOf s.toList

/-- JavaScript `String.prototype.endsWith`. -/
def strEndsWith (s suf : String) : Bool :=
  suf.toList.isSuffixOf s.toList

/-- JavaScript `String.prototype.toLowerCase` (ASCII letters). -/
def lowerStr (s : String) : String :=
  (s.toList.map Char.toLower).asString

/-- Drop the first `n` characters of a string (`String.prototype.slice(n)`). -/
def strDropN (s : String) (n : Nat) : String :=
  (s.toList.drop n).asString

/-- `String.prototype.split` with a single-character separator. -/
def splitCharAux (sep : Char) : List Char → List Char → List (List Char)
  | [], acc => [acc.reverse]
  | c :: cs, acc =>
    if c = sep then acc.reverse :: splitCharAux sep cs []
    else splitCharAux sep cs (c :: acc)

def splitStrChar (sep : Char) (s : String) : List String :=
  (splitCharAux sep s.toList []).map List.asString

/-! ### Cookie parsing and the authorization check (`server.ts`) -/

def COOKIE_NAME : String := "gallery_session"

/-- One `map.set(name, value)` step on the assoc-list model of the JS `Map`
(overwrite an existing key in place, else append). -/
def setCookieMap (m : List (String × String)) (k v : String) : List (String × String) :=
  if m.any (fun p => p.1 == k) then
    m.map (fun p => if p.1 = k then (k, v) else p)
  else m ++ [(k, v)]

/-- `parseCookies(header)`: split on `;`, trim each part, split the part at
`=` signs — the name is the piece before the first `=`, the value is the
rest re-joined with `=` — and skip empty names. -/
def parseCookies (header : String) : List (String × String) :=
  if header = "" then []
  else
    (splitStrChar ';' header).foldl (fun m part =>
      match splitStrChar '=' (trimStr part) with
      | [] => m
      | name :: rest =>
        if name = "" then m else setCookieMap m name (String.intercalate "=" rest)) []

def cookieGet (m : List (String × String)) (k : String) : Option String :=
  (m.find? (fun p => p.1 == k)).map (fun p => p.2)

/-- `isAuthorized(req)`: read the session cookie; a missing or empty token
is unauthorized, otherwise the token must equal the expected token. -/
def isAuthorized (expectedToken : String) (cookieHeader : String) : Bool :=
  match cookieGet (parseCookies cookieHeader) COOKIE_NAME with
  | none => false
  | some token => if token = "" then false else token == expectedToken

/-! ### Startup (`server.ts` lines 8-13) -/

inductive Startup where
  | exited (code : Nat)
  | started (password : String)
deriving DecidableEq, Repr

/-- `PASSWORD = Deno.env.get('GALLERY_PASSWORD') ?? 'yasnafelix2024'`
followed by `if (!PASSWORD) { console.error(...); Deno.exit(1); }` —
the environment is modelled as a lookup function. -/
def serverStartup (env : String → Option String) : Startup :=
  let PASSWORD := (env "GALLERY_PASSWORD").getD "yasnafelix2024"
  if PASSWORD = "" then .exited 1 else .started PASSWORD

/-! ### The request handler (`Deno.serve` callback in `server.ts`)

The SHA-256-plus-base64 `computeToken` is abstracted as a string function
`tok` (its cryptographic internals are irrelevant to the control flow);
`EXPECTED_TOKEN = await computeToken(PASSWORD)` becomes `tok password`.
The filesystem behind `serveFile` is a partial map from resolved paths to
byte contents (`Deno.errors.NotFound` becomes `none`). -/

structure Req where
  method : String
  pathname : String
  queryErrorFlag : Bool
  cookieHeader : String
  formPassword : Option String
deriving DecidableEq, Repr

inductive RespBody where
  | empty
  | loginHtml (message : String)
  | fileBytes (bytes : List Nat)
  | textMsg (s : String)
deriving DecidableEq, Repr

structure Resp where
  status : Nat
  location : Option String
  setCookie : Option String
  contentType : Option String
  body : RespBody
deriving DecidableEq, Repr

def PUBLIC_PATHS : List String := ["/login", "/login.html", "/styles.css", "/favicon.ico"]

def redirectResp (location : String) : Resp :=
  { status := 303, location := some location, setCookie := none,
    contentType := none, body := .empty }

/-- `renderLogin(message, status)`: the login template with
`{{ERROR_MESSAGE}}` replaced by `message || '&nbsp;'`. -/
def renderLoginResp (message : String) (status : Nat) : Resp :=
  { status := status, location := none, setCookie := none,
    contentType := some "text/html; charset=utf-8",
    body := .loginHtml (if message = "" then "&nbsp;" else message) }

def getContentType (pathname : String) : Option String :=
  let lower := lowerStr pathname
  if strEndsWith lower ".html" then some "text/html; charset=utf-8"
  else if strEndsWith lower ".css" then some "text/css; charset=utf-8"
  else if strEndsWith lower ".js" then some "application/javascript; charset=utf-8"
  else if strEndsWith lower ".json" then some "application/json; charset=utf-8"
  else if strEndsWith lower ".jpg" ∨ strEndsWith lower ".jpeg" then some "image/jpeg"
  else if strEndsWith lower ".png" then some "image/png"
  else if strEndsWith lower ".webp" then some "image/webp"
  else if strEndsWith lower ".avif" then some "image/avif"
  else if strEndsWith lower ".svg" then some "image/svg+xml"
  else if strEndsWith lower ".gif" then some "image/gif"
  else none

def serveFile (fs : String → Option (List Nat)) (fileUrlPath : String) : Resp :=
  match fs fileUrlPath with
  | some bytes =>
    { status := 200, location := none, setCookie := none,
      contentType := getContentType fileUrlPath, body := .fileBytes bytes }
  | none =>
    { status := 404, location := none, setCookie := none,
      contentType := none, body := .textMsg "Not Found" }

/-- The session `Set-Cookie` string built on successful login:
`gallery_session=<token>; HttpOnly; SameSite=Strict; Path=/; Max-Age=28800`
(`Max-Age` is `60 * 60 * 8` seconds = 8 hours). -/
def sessionCookieValue (token : String) : String :=
  COOKIE_NAME ++ "=" ++ token ++ "; HttpOnly; SameSite=Strict; Path=/; Max-Age=" ++
    toString (60 * 60 * 8)

/-- The clearing `Set-Cookie` string sent by `/logout`. -/
def clearCookieValue : String :=
  COOKIE_NAME ++ "=; HttpOnly; SameSite=Strict; Path=/; Max-Age=0"

/-- One WHATWG-style path segment step for dot-segment removal:
`.` is dropped, `..` pops the last segment, anything else is kept. -/
def stepSeg (out : List String) (s : String) : List String :=
  if s = "." then out
  else if s = ".." then out.dropLast
  else out ++ [s]

/-- Resolve `.` and `..` segments in an absolute URL path (the path
normalization `new URL` performs); a trailing `.`/`..` leaves a trailing
slash. -/
def resolveDots (p : String) : String :=
  let segs := (splitStrChar '/' p).drop 1
  let core := segs.foldl stepSeg []
  let core := if segs.getLastD "" = "." ∨ segs.getLastD "" = ".." then core ++ [""] else core
  "/" ++ String.intercalate "/" core

/-- `new URL(cleanPath, ROOT_DIR).pathname` for the path-only relative
references the handler produces: a root-relative path replaces the base
path, otherwise the reference is appended to the base directory path, and
dot segments are resolved.  (Query/fragment splitting and Windows-drive
quirks of WHATWG parsing do not arise for the handler's inputs.) -/
def resolveUrlPath (rootPath cleanPath : String) : String :=
  if strStartsWith cleanPath "/" then resolveDots cleanPath
  else resolveDots (rootPath ++ cleanPath)

/-- `resolvePath(pathname)`: strip one leading `/`, resolve against the
root directory, and reject candidates whose resolved path does not start
with the root path (`throw new Error('Path traversal attempt detected.')`,
modelled as `.error ()`). -/
def resolvePath (rootPath pathname : String) : Except Unit String :=
  let cleanPath := if strStartsWith pathname "/" then strDropN pathname 1 else pathname
  let candidate := resolveUrlPath rootPath cleanPath
  if strStartsWith candidate rootPath then .ok candidate else .error ()

/-- The `Deno.serve` request handler, branch for branch.  `tok` abstracts
`computeToken`, `password` is the configured `PASSWORD`, `fs` the on-disk
files keyed by resolved path, `rootPath` the pathname of `ROOT_DIR`. -/
def handle (tok : String → String) (password : String)
    (fs : String → Option (List Nat)) (rootPath : String) (req : Req) : Resp :=
  let expectedToken := tok password
  let authorized := isAuthorized expectedToken req.cookieHeader
  let isPublic := PUBLIC_PATHS.contains req.pathname
  if req.pathname = "/login" ∧ req.method = "GET" then
    if authorized then redirectResp "/"
    else renderLoginResp
      (if req.queryErrorFlag then "Incorrect password. Please try again." else "&nbsp;") 200
  else if req.pathname = "/login" ∧ req.method = "POST" then
    let submitted := req.formPassword.getD ""
    if submitted = "" then renderLoginResp "Please enter the password." 400
    else if tok submitted ≠ expectedToken then redirectResp "/login?error=1"
    else
      { status := 303, location := some "/",
        setCookie := some (sessionCookieValue expectedToken),
        contentType := none, body := .empty }
  else if req.pathname = "/logout" then
    { status := 303, location := some "/login", setCookie := some clearCookieValue,
      contentType := none, body := .empty }
  else if ¬authorized ∧ ¬isPublic then redirectResp "/login"
  else if req.pathname = "/" ∨ req.pathname = "/index.html" then
    serveFile fs (rootPath ++ "index.html")
  else if req.pathname = "/login.html" then
    if authorized then redirectResp "/" else renderLoginResp "&nbsp;" 200
  else if req.pathname = "/styles.css" ∨ req.pathname = "/app.js" ∨
      strStartsWith req.pathname "/assets/" ∨ strStartsWith req.pathname "/scripts/" then
    match resolvePath rootPath req.pathname with
    | .error _ =>
      { status := 403, location := none, setCookie := none,
        contentType := none, body := .textMsg "Forbidden" }
    | .ok fileUrl => serveFile fs fileUrl
  else if authorized then serveFile fs (rootPath ++ "index.html")
  else redirectResp "/login"

lemma contains_iff_mem (l : List String) (a : String) : l.contains a = true ↔ a ∈ l := by
  simp [List.contains]

lemma serveFile_location (fs : String → Option (List Nat)) (p : String) :
    (serveFile fs p).location = none := by
  unfold serveFile
  cases fs p <;> rfl

lemma serveFile_body_not_login (fs : String → Option (List Nat)) (p : String) :
    (serveFile fs p).location ≠ some "/login" := by
  rw [serveFile_location]
  intro h
  exact Option.noConfusion h

/-- C1 (code bug evaluation): with `GALLERY_PASSWORD` unset the startup
code does not exit; the `?? 'yasnafelix2024'` fallback makes `PASSWORD`
non-empty, so the `if (!PASSWORD) Deno.exit(1)` guard is dead code and the
server starts with the hard-coded default password. -/
theorem startup_unset_env_uses_default_password :
    serverStartup (fun _ => none) = .started "yasnafelix2024" := rfl

/-- C2 counterexample: `/favicon.ico` is a public path, yet an
unauthenticated request to it is answered with a 303 redirect to `/login`
(matching no serving branch, it falls through to the final redirect),
contradicting the claim that a public path is never redirected to login. -/
theorem access_gate_favicon_cex :
    "/favicon.ico" ∈ PUBLIC_PATHS ∧
    isAuthorized ((fun s => "h" ++ s) "pw") "" = false ∧
    handle (fun s => "h" ++ s) "pw" (fun _ => none) "/app/"
      { method := "GET", pathname := "/favicon.ico", queryErrorFlag := false,
        cookieHeader := "", formPassword := none } = redirectResp "/login" := by
  exact ⟨by decide, by decide, by decide⟩

/-- C2 (amended): every request to a non-public path without a valid
session cookie receives an HTTP 303 redirect whose Location is `/login`
(for `/logout` together with a cookie-clearing header).  Public paths
bypass the gate check, and `/login` (for the GET/POST methods it handles),
`/login.html` and `/styles.css` are never redirected to `/login` while
unauthorized — but `/favicon.ico`, matching no serving branch, is
redirected to `/login` anyway.  With a valid cookie, a request to a
non-public path other than `/logout` proceeds to content and is never
redirected to `/login`; `/logout` always answers 303 to `/login`. -/
theorem access_gate_amended :
    (∀ (tok : String → String) (password : String) (fs : String → Option (List Nat))
        (root : String) (req : Req),
      isAuthorized (tok password) req.cookieHeader = false →
      req.pathname ∉ PUBLIC_PATHS →
      (handle tok password fs root req).status = 303 ∧
        (handle tok password fs root req).location = some "/login")
    ∧ (∀ (tok : String → String) (password : String) (fs : String → Option (List Nat))
        (root : String) (req : Req),
      isAuthorized (tok password) req.cookieHeader = false →
      req.pathname = "/favicon.ico" →
      handle tok password fs root req = redirectResp "/login")
    ∧ (∀ (tok : String → String) (password : String) (fs : String → Option (List Nat))
        (root : String) (req : Req),
      isAuthorized (tok password) req.cookieHeader = false →
      ((req.pathname = "/login" ∧ (req.method = "GET" ∨ req.method = "POST")) ∨
        req.pathname = "/login.html" ∨ req.pathname = "/styles.css") →
      (handle tok password fs root req).location ≠ some "/login")
    ∧ (∀ (tok : String → String) (password : String) (fs : String → Option (List Nat))
        (root : String) (req : Req),
      isAuthorized (tok password) req.cookieHeader = true →
      req.pathname ∉ PUBLIC_PATHS → req.pathname ≠ "/logout" →
      (handle tok password fs root req).location ≠ some "/login")
    ∧ (∀ (tok : String → String) (password : String) (fs : String → Option (List Nat))
        (root : String) (req : Req),
      req.pathname = "/logout" →
      handle tok password fs root req =
        { status := 303, location := some "/login", setCookie := some clearCookieValue,
          contentType := none, body := .empty }) := by
  have hmem1 : ("/login" : String) ∈ PUBLIC_PATHS := by decide
  refine ⟨?_, ?_, ?_, ?_, ?_⟩
  · -- unauthorized, non-public path: 303 to /login
    intro tok password fs root req hauth hpub
    have hp1 : req.pathname ≠ "/login" := fun h => hpub (h ▸ hmem1)
    have hcon : ¬ (PUBLIC_PATHS.contains req.pathname = true) := by
      intro h
      exact hpub ((contains_iff_mem _ _).mp h)
    unfold handle
    rw [if_neg (fun h => hp1 h.1), if_neg (fun h => hp1 h.1)]
    by_cases hlo : req.pathname = "/logout"
    · rw [if_pos hlo]
      exact ⟨rfl, rfl⟩
    · rw [if_neg hlo, if_pos ⟨by simp [hauth], by simpa using hcon⟩]
      exact ⟨rfl, rfl⟩
  · -- unauthorized /favicon.ico: redirected to /login anyway
    intro tok password fs root req hauth hp
    rcases req with ⟨m, p, q, ch, fp⟩
    simp only at hp hauth
    subst hp
    unfold handle
    simp only [hauth]
    norm_num
    rfl
  · -- unauthorized, the remaining public paths: never a redirect to /login
    intro tok password fs root req hauth hcase
    rcases req with ⟨m, p, q, ch, fp⟩
    simp only at hauth hcase ⊢
    rcases hcase with ⟨hp, hm⟩ | hp | hp
    · subst hp
      rcases hm with hm | hm
      · subst hm
        simp +decide [handle, hauth, renderLoginResp]
      · subst hm
        by_cases hsub : fp.getD "" = ""
        · simp +decide [handle, hauth, hsub, renderLoginResp]
        · by_cases htok : tok (fp.getD "") = tok password
          · simp +decide [handle, hauth, hsub, htok]
          · simp +decide [handle, hauth, hsub, htok, redirectResp]
    · subst hp
      simp +decide [handle, hauth, renderLoginResp]
    · subst hp
      simp +decide [handle, hauth]
      cases hres : resolvePath root "/styles.css" with
      | error e => simp [hres]
      | ok fileUrl => simp [hres, serveFile_location]
  · -- authorized, non-public, not /logout: proceeds, never redirected to /login
    intro tok password fs root req hauth hpub hlo
    have hp1 : req.pathname ≠ "/login" := fun h => hpub (h ▸ hmem1)
    have hp2 : req.pathname ≠ "/login.html" := fun h => hpub (by rw [h]; decide)
    unfold handle
    rw [if_neg (fun h => hp1 h.1), if_neg (fun h => hp1 h.1), if_neg hlo,
      if_neg (by simp [hauth])]
    by_cases hidx : req.pathname = "/" ∨ req.pathname = "/index.html"
    · rw [if_pos hidx]
      exact serveFile_body_not_login fs _
    · rw [if_neg hidx, if_neg hp2]
      by_cases hstat : req.pathname = "/styles.css" ∨ req.pathname = "/app.js" ∨
          strStartsWith req.pathname "/assets/" = true ∨
          strStartsWith req.pathname "/scripts/" = true
      · rw [if_pos hstat]
        cases hres : resolvePath root req.pathname with
        | error e =>
          intro h
          simp at h
        | ok fileUrl => exact serveFile_body_not_login fs _
      · rw [if_neg hstat, if_pos (by simp [hauth])]
        exact serveFile_body_not_login fs _
  · -- /logout always answers 303 to /login with the clearing cookie
    intro tok password fs root req hp
    rcases req with ⟨m, p, q, ch, fp⟩
    simp only at hp
    subst hp
    simp +decide [handle]

/-- C2 witness: a cookie-less GET for a non-public path (`/photos`) is
answered 303 with Location `/login`. -/
theorem access_gate_amended_witness :
    isAuthorized ((fun s => "t" ++ s) "pw") "" = false ∧
    ("/photos" : String) ∉ PUBLIC_PATHS ∧
    (handle (fun s => "t" ++ s) "pw" (fun _ => none) "/app/"
      { method := "GET", pathname := "/photos", queryErrorFlag := false,
        cookieHeader := "", formPassword := none }).status = 303 ∧
    (handle (fun s => "t" ++ s) "pw" (fun _ => none) "/app/"
      { method := "GET", pathname := "/photos", queryErrorFlag := false,
        cookieHeader := "", formPassword := none }).location = some "/login" := by
  have h := access_gate_amended.1 (fun s => "t" ++ s) "pw" (fun _ => none) "/app/"
    { method := "GET", pathname := "/photos", queryErrorFlag := false,
      cookieHeader := "", formPassword := none } (by decide) (by decide)
  exact ⟨by decide, by decide, h.1, h.2⟩

/-- C3: on POST `/login`, an empty (or missing) password field yields the
re-rendered login page with status 400; a non-empty submission whose token
differs from the expected token yields a 303 redirect to `/login?error=1`;
a matching token yields a 303 redirect to the gallery root `/` carrying
the session cookie `gallery_session=<token>; HttpOnly; SameSite=Strict;
Path=/; Max-Age=28800` (8 hours). -/
theorem login_post_behaviour :
    ∀ (tok : String → String) (password : String) (fs : String → Option (List Nat))
        (root : String) (req : Req),
      req.pathname = "/login" → req.method = "POST" →
      ((req.formPassword.getD "" = "" →
        handle tok password fs root req = renderLoginResp "Please enter the password." 400)
      ∧ (req.formPassword.getD "" ≠ "" → tok (req.formPassword.getD "") ≠ tok password →
        handle tok password fs root req = redirectResp "/login?error=1")
      ∧ (req.formPassword.getD "" ≠ "" → tok (req.formPassword.getD "") = tok password →
        handle tok password fs root req =
          { status := 303, location := some "/",
            setCookie := some (sessionCookieValue (tok password)),
            contentType := none, body := .empty }
        ∧ sessionCookieValue (tok password) =
            "gallery_session=" ++ tok password ++
              "; HttpOnly; SameSite=Strict; Path=/; Max-Age=28800")) := by
  intro tok password fs root req hp hm
  rcases req with ⟨m, p, q, ch, fp⟩
  simp only at hp hm ⊢
  subst hp
  subst hm
  refine ⟨?_, ?_, ?_⟩
  · intro h
    simp +decide [handle, h]
  · intro h hne
    simp +decide [handle, h, hne]
  · intro h heq
    constructor
    · simp +decide [handle, h, heq]
    · unfold sessionCookieValue COOKIE_NAME
      have h28800 : toString (60 * 60 * 8) = "28800" := rfl
      rw [h28800]
      simp [String.append_assoc]

/-- C3 witness: with a concrete token function, submitting the correct
password to POST `/login` sets the session cookie and redirects to `/`,
and submitting a wrong password redirects to `/login?error=1`. -/
theorem login_post_behaviour_witness :
    handle (fun s => "t" ++ s) "pw" (fun _ => none) "/app/"
      { method := "POST", pathname := "/login", queryErrorFlag := false,
        cookieHeader := "", formPassword := some "pw" } =
      { status := 303, location := some "/",
        setCookie := some (sessionCookieValue "tpw"),
        contentType := none, body := .empty } ∧
    sessionCookieValue "tpw" =
      "gallery_session=tpw; HttpOnly; SameSite=Strict; Path=/; Max-Age=28800" ∧
    handle (fun s => "t" ++ s) "pw" (fun _ => none) "/app/"
      { method := "POST", pathname := "/login", queryErrorFlag := false,
        cookieHeader := "", formPassword := some "no" } = redirectResp "/login?error=1" := by
  have hok := (login_post_behaviour (fun s => "t" ++ s) "pw" (fun _ => none) "/app/"
    { method := "POST", pathname := "/login", queryErrorFlag := false,
      cookieHeader := "", formPassword := some "pw" } rfl rfl).2.2
    (by decide) (by decide)
  have hbad := (login_post_behaviour (fun s => "t" ++ s) "pw" (fun _ => none) "/app/"
    { method := "POST", pathname := "/login", queryErrorFlag := false,
      cookieHeader := "", formPassword := some "no" } rfl rfl).2.1
    (by decide) (by decide)
  refine ⟨?_, by decide, hbad⟩
  have := hok.1
  simpa using this

lemma static_path_facts {p : String}
    (hp : strStartsWith p "/assets/" = true ∨ strStartsWith p "/scripts/" = true) :
    p ≠ "/login" ∧ p ≠ "/logout" ∧ p ≠ "/" ∧ p ≠ "/index.html" ∧ p ≠ "/login.html" ∧
    p ∉ PUBLIC_PATHS ∧ strStartsWith p "/" = true := by
  refine ⟨?_, ?_, ?_, ?_, ?_, ?_, ?_⟩
  · intro h; subst h; revert hp; decide
  · intro h; subst h; revert hp; decide
  · intro h; subst h; revert hp; decide
  · intro h; subst h; revert hp; decide
  · intro h; subst h; revert hp; decide
  · intro h
    simp only [PUBLIC_PATHS, List.mem_cons, List.not_mem_nil, or_false] at h
    rcases h with h | h | h | h <;> (subst h; revert hp; decide)
  · rcases hp with h | h
    · have hpre := List.isPrefixOf_iff_prefix.mp h
      apply List.isPrefixOf_iff_prefix.mpr
      exact List.IsPrefix.trans (List.isPrefixOf_iff_prefix.mp (by decide)) hpre
    · have hpre := List.isPrefixOf_iff_prefix.mp h
      apply List.isPrefixOf_iff_prefix.mpr
      exact List.IsPrefix.trans (List.isPrefixOf_iff_prefix.mp (by decide)) hpre

/-- C8: a request for a path under the recognized static-asset prefixes
(`/assets/`, `/scripts/`) whose resolved filesystem location does not lie
under the served root (a path-traversal attempt) is answered, when
authorized, with a generic HTTP 403 Forbidden carrying no file content;
and regardless of authorization such a request never yields file bytes. -/
theorem static_traversal_forbidden :
    ∀ (tok : String → String) (password : String) (fs : String → Option (List Nat))
        (root : String) (req : Req),
      (strStartsWith req.pathname "/assets/" = true ∨
        strStartsWith req.pathname "/scripts/" = true) →
      strStartsWith (resolveUrlPath root (strDropN req.pathname 1)) root = false →
      ((isAuthorized (tok password) req.cookieHeader = true →
        handle tok password fs root req =
          { status := 403, location := none, setCookie := none,
            contentType := none, body := .textMsg "Forbidden" })
      ∧ ∀ bytes, (handle tok password fs root req).body ≠ .fileBytes bytes) := by
  intro tok password fs root req hp hesc
  obtain ⟨h1, h2, h3, h4, h5, h6, h7⟩ := static_path_facts hp
  have hres : resolvePath root req.pathname = .error () := by
    unfold resolvePath
    rw [if_pos h7]
    rw [if_neg (by rw [hesc]; exact Bool.false_ne_true)]
  have hcon : ¬ (PUBLIC_PATHS.contains req.pathname = true) := by
    intro h
    exact h6 ((contains_iff_mem _ _).mp h)
  constructor
  · intro hauth
    unfold handle
    rw [if_neg (fun h => h1 h.1), if_neg (fun h => h1 h.1), if_neg h2,
      if_neg (by simp [hauth]),
      if_neg (by rintro (h | h) <;> [exact h3 h; exact h4 h]), if_neg h5,
      if_pos (Or.inr (Or.inr (by simpa using hp)))]
    rw [hres]
  · intro bytes
    by_cases hauth : isAuthorized (tok password) req.cookieHeader = true
    · unfold handle
      rw [if_neg (fun h => h1 h.1), if_neg (fun h => h1 h.1), if_neg h2,
        if_neg (by simp [hauth]),
        if_neg (by rintro (h | h) <;> [exact h3 h; exact h4 h]), if_neg h5,
        if_pos (Or.inr (Or.inr (by simpa using hp)))]
      rw [hres]
      intro h
      exact RespBody.noConfusion h
    · have hauth' : isAuthorized (tok password) req.cookieHeader = false := by
        revert hauth
        cases isAuthorized (tok password) req.cookieHeader <;> simp
      unfold handle
      rw [if_neg (fun h => h1 h.1), if_neg (fun h => h1 h.1), if_neg h2,
        if_pos ⟨by simp [hauth'], by simpa using hcon⟩]
      intro h
      exact RespBody.noConfusion h

/-- C8 witness: an authorized request for `/assets/../../etc/passwd`
resolves outside the root `/app/` and is answered 403 Forbidden. -/
theorem static_traversal_forbidden_witness :
    strStartsWith "/assets/../../etc/passwd" "/assets/" = true ∧
    strStartsWith (resolveUrlPath "/app/" (strDropN "/assets/../../etc/passwd" 1)) "/app/"
      = false ∧
    isAuthorized ((fun s => "t" ++ s) "pw") "gallery_session=tpw" = true ∧
    handle (fun s => "t" ++ s) "pw" (fun _ => none) "/app/"
      { method := "GET", pathname := "/assets/../../etc/passwd", queryErrorFlag := false,
        cookieHeader := "gallery_session=tpw", formPassword := none } =
      { status := 403, location := none, setCookie := none,
        contentType := none, body := .textMsg "Forbidden" } := by
  have h := (static_traversal_forbidden (fun s => "t" ++ s) "pw" (fun _ => none) "/app/"
    { method := "GET", pathname := "/assets/../../etc/passwd", queryErrorFlag := false,
      cookieHeader := "gallery_session=tpw", formPassword := none }
    (Or.inl (by decide)) (by decide)).1 (by decide)
  exact ⟨by decide, by decide, by decide, h⟩

/-! ### The manifest generator (`generate-gallery.mjs`): reconciler -/

/-- `String.prototype.indexOf` for a substring, as a character index
(`none` for JavaScript's `-1`). -/
def indexOfSub (needle : List Char) : List Char → Option Nat
  | [] => if needle.isPrefixOf [] then some 0 else none
  | c :: t =>
    if needle.isPrefixOf (c :: t) then some 0
    else (indexOfSub needle t).map (fun i => i + 1)

/-- `String.prototype.includes`. -/
def strContains (s sub : String) : Bool := (indexOfSub sub.toList s.toList).isSome

/-- `stripMarker(value, marker)`: remove the first occurrence of `marker`
anywhere in `value`; an empty or absent marker leaves the value unchanged. -/
def stripMarker (value marker : String) : String :=
  if marker = "" then value
  else
    match indexOfSub marker.toList value.toList with
    | none => value
    | some i => (value.toList.take i ++ value.toList.drop (i + marker.toList.length)).asString

/-- Node `path.extname` for directory-free file names: the substring from
the last `.`, unless that dot is the leading character or the name is
`..`. -/
def extname (name : String) : String :=
  if name = ".." then ""
  else
    match indexOfSub ['.'] name.toList.reverse with
    | none => ""
    | some ri =>
      let i := name.toList.length - 1 - ri
      if i = 0 then "" else (name.toList.drop i).asString

/-- `path.basename(fileName, ext)` with `ext = path.extname(fileName)` for
directory-free names: strip the extension suffix unless the whole name is
the extension. -/
def basenameNoExt (name : String) : String :=
  let ext := extname name
  if ext ≠ "" ∧ name ≠ ext ∧ strEndsWith name ext = true then
    (name.toList.take (name.toList.length - ext.toList.length)).asString
  else name

inductive FileRole where
  | thumbnail
  | full
  | generic
deriving DecidableEq, Repr

structure Classification where
  type : FileRole
  cleanBaseName : String
deriving DecidableEq, Repr

/-- `classifyBaseName`: the thumbnail suffix is checked first, then the
full suffix (substring containment anywhere in the name); the matched
suffix's first occurrence is stripped to obtain the clean base name. -/
def classifyBaseName (baseName thumbnailSuffix fullSuffix : String) : Classification :=
  if thumbnailSuffix ≠ "" ∧ strContains baseName thumbnailSuffix = true then
    ⟨.thumbnail, stripMarker baseName thumbnailSuffix⟩
  else if fullSuffix ≠ "" ∧ strContains baseName fullSuffix = true then
    ⟨.full, stripMarker baseName fullSuffix⟩
  else ⟨.generic, baseName⟩

def deriveEntryKey (relativeDir baseName : String) : String :=
  if relativeDir = "" then baseName else relativeDir ++ "/" ++ baseName

/-- An image file as fed to `buildPhotosFromFiles`: its traversal metadata
from `collectImageFiles` plus the result of `getImageDimensions`
(`none` models both a `null` result for unsupported extensions and a
caught parse failure — both leave the entry without dimensions). -/
structure SrcFile where
  relativeDir : String
  fileName : String
  relativePath : String
  dims : Option (Nat × Nat)
deriving DecidableEq, Repr

/-- The mutable accumulator entry keyed by `entryKey`. -/
structure GEntry where
  key : String
  relativeDir : String
  baseName : String
  sortKey : String
  thumbnail : Option String
  full : Option String
  width : Option Nat
  height : Option Nat
  thumbnailWidth : Option Nat
  thumbnailHeight : Option Nat
deriving DecidableEq, Repr

/-- A finalized manifest photo entry.  The floating-point `aspectRatio`
field (`Number((height / width).toFixed(6))`) is outside the embedding;
no claim mentions it. -/
structure Photo where
  id : String
  title : String
  description : String
  thumbnail : String
  full : String
  orientation : String
  width : Option Nat
  height : Option Nat
  thumbnailWidth : Option Nat
  thumbnailHeight : Option Nat
deriving DecidableEq, Repr

/-- The role-merge step of `buildPhotosFromFiles`: a thumbnail file sets
the thumbnail path and (only when known) thumbnail dimensions; a full file
sets the full path and overwrites the primary dimensions with
`dimensions?.width` / `dimensions?.height` (clearing them when unknown); a
generic file fills whichever roles are still empty. -/
def applyFileToEntry (e : GEntry) (relativePath : String) (dims : Option (Nat × Nat)) :
    FileRole → GEntry
  | .thumbnail =>
    { e with
      thumbnail := some relativePath,
      thumbnailWidth := (match dims with | some d => some d.1 | none => e.thumbnailWidth),
      thumbnailHeight := (match dims with | some d => some d.2 | none => e.thumbnailHeight) }
  | .full =>
    { e with
      full := some relativePath,
      width := dims.map Prod.fst,
      height := dims.map Prod.snd }
  | .generic =>
    let e1 :=
      if e.full = none then
        { e with
          full := some relativePath,
          width := dims.map Prod.fst,
          height := dims.map Prod.snd }
      else e
    if e1.thumbnail = none then
      { e1 with
        thumbnail := some relativePath,
        thumbnailWidth := (match dims with | some d => some d.1 | none => e1.thumbnailWidth),
        thumbnailHeight := (match dims with | some d => some d.2 | none => e1.thumbnailHeight) }
    else e1

/-- Processing one file of the loop body of `buildPhotosFromFiles`:
classify, derive the entry key, create the keyed entry on first sight
(insertion order preserved, as for a JS `Map`), and merge the file into
its entry. -/
def upsertFile (thumbnailSuffix fullSuffix : String) (entries : List GEntry)
    (f : SrcFile) : List GEntry :=
  let baseName := basenameNoExt f.fileName
  let classification := classifyBaseName baseName thumbnailSuffix fullSuffix
  let cleanBaseName :=
    if classification.cleanBaseName = "" then baseName else classification.cleanBaseName
  let entryKey := deriveEntryKey f.relativeDir cleanBaseName
  let entries :=
    if entries.any (fun e => e.key == entryKey) then entries
    else entries ++
      [{ key := entryKey, relativeDir := f.relativeDir, baseName := cleanBaseName,
         sortKey := lowerStr entryKey, thumbnail := none, full := none, width := none,
         height := none, thumbnailWidth := none, thumbnailHeight := none }]
  entries.map (fun e =>
    if e.key = entryKey then applyFileToEntry e f.relativePath f.dims classification.type
    else e)

/-- Stable insertion sort by `sortKey` under an abstract comparator — the
source sorts with a locale-dependent `Intl.Collator(undefined, { numeric,
sensitivity: 'base' })`, which the embedding abstracts as `cmp`. -/
def insertSorted (cmp : String → String → Ordering) (e : GEntry) :
    List GEntry → List GEntry
  | [] => [e]
  | x :: t =>
    if cmp e.sortKey x.sortKey = Ordering.lt then e :: x :: t
    else x :: insertSorted cmp e t

def sortEntries (cmp : String → String → Ordering) (l : List GEntry) : List GEntry :=
  l.foldl (fun acc e => insertSorted cmp e acc) []

/-- Replace each run of characters satisfying `isSep` by a single `rep`
(the `String.prototype.replace` global-regex-run idiom); the flag carries
whether the previous character was part of a run. -/
def collapseRuns (isSep : Char → Bool) (rep : Char) : List Char → Bool → List Char
  | [], _ => []
  | c :: t, prevSep =>
    if isSep c then
      if prevSep then collapseRuns isSep rep t true
      else rep :: collapseRuns isSep rep t true
    else c :: collapseRuns isSep rep t false

def isAlnumAscii (c : Char) : Bool :=
  decide (('a' ≤ c ∧ c ≤ 'z') ∨ ('A' ≤ c ∧ c ≤ 'Z') ∨ ('0' ≤ c ∧ c ≤ '9'))

/-- `toKebabCase`: NFKD normalization (a Unicode-table operation outside
the repository, abstracted as `nfkd`; it is the identity on the ASCII
names the claims concern), removal of combining marks U+0300–U+036F,
replacement of non-alphanumeric runs by `-`, trimming of leading/trailing
dashes, and lower-casing. -/
def toKebabCase (nfkd : String → String) (value : String) : String :=
  let cs := (nfkd value).toList
  let cs := cs.filter (fun c => decide (c.toNat < 0x300 ∨ 0x36f < c.toNat))
  let cs := collapseRuns (fun c => !(isAlnumAscii c)) '-' cs false
  let cs := ((cs.dropWhile (fun c => c = '-')).reverse.dropWhile (fun c => c = '-')).reverse
  (cs.map Char.toLower).asString

/-- `value.replace(/[-_]+/g, ' ')`. -/
def replaceSepRuns (s : String) : String :=
  (collapseRuns (fun c => c = '-' || c = '_') ' ' s.toList false).asString

def upFirstWord (w : List Char) : List Char :=
  match w with
  | [] => []
  | c :: t => c.toUpper :: t

/-- `toTitleCase`: separators to spaces, then capitalize each word. -/
def toTitleCase (value : String) : String :=
  String.intercalate " "
    ((splitStrChar ' ' (replaceSepRuns value)).map (fun w => (upFirstWord w.toList).asString))

/-- `determineOrientation`: `square` when a dimension is missing or zero or
the two differ by at most 1, else `portrait`/`landscape`. -/
def determineOrientation (w h : Option Nat) : String :=
  if w.getD 0 = 0 ∨ h.getD 0 = 0 then "square"
  else if max (w.getD 0) (h.getD 0) - min (w.getD 0) (h.getD 0) ≤ 1 then "square"
  else if h.getD 0 > w.getD 0 then "portrait" else "landscape"

def optOr {α : Type} (a b : Option α) : Option α :=
  match a with
  | some x => some x
  | none => b

/-- JavaScript truthiness of an optional count: `0` and `undefined` are
both falsy, so the field is omitted. -/
def truthyNat (o : Option Nat) : Option Nat :=
  match o with
  | some n => if n = 0 then none else some n
  | none => none

def padStart3 (s : String) : String :=
  (List.replicate (3 - s.toList.length) '0').asString ++ s

def photoIdOf (counter : Nat) : String := "photo-" ++ padStart3 (toString counter)

/-- `finalizePhotoEntry`: thumbnail and full fall back to each other, an
entry with neither is dropped; the id is the kebab-cased
`"{directory} {cleanBaseName}"` seed with a sequential `photo-NNN`
fallback; the title is the title-cased base name defaulting to
"Untitled photo"; numeric fields are emitted only when truthy. -/
def finalizePhotoEntry (nfkd : String → String) (e : GEntry) (counter : Nat) :
    Option Photo × Nat :=
  match optOr e.thumbnail e.full, optOr e.full e.thumbnail with
  | some thumbnail, some full =>
    let idSeed := String.intercalate " " ([e.relativeDir, e.baseName].filter (fun s => s != ""))
    let kebab := toKebabCase nfkd idSeed
    let titleSource := trimStr (replaceSepRuns e.baseName)
    let title := if titleSource = "" then "Untitled photo" else toTitleCase titleSource
    let width := optOr e.width e.thumbnailWidth
    let height := optOr e.height e.thumbnailHeight
    (some { id := (if kebab = "" then photoIdOf counter else kebab), title := title,
            description := "", thumbnail := thumbnail, full := full,
            orientation := determineOrientation width height,
            width := truthyNat e.width, height := truthyNat e.height,
            thumbnailWidth := truthyNat e.thumbnailWidth,
            thumbnailHeight := truthyNat e.thumbnailHeight },
     if kebab = "" then counter + 1 else counter)
  | _, _ => (none, counter)

/-- `.map(finalizePhotoEntry).filter(Boolean)` with the sequential-id
counter threaded through. -/
def finalizeAll (nfkd : String → String) : List GEntry → Nat → List Photo
  | [], _ => []
  | e :: t, counter =>
    match finalizePhotoEntry nfkd e counter with
    | (some p, c2) => p :: finalizeAll nfkd t c2
    | (none, c2) => finalizeAll nfkd t c2

/-- `buildPhotosFromFiles`: accumulate entries over the files in order,
sort by `sortKey`, finalize. -/
def buildPhotosFromFiles (nfkd : String → String) (cmp : String → String → Ordering)
    (thumbnailSuffix fullSuffix : String) (files : List SrcFile) (counter0 : Nat) :
    List Photo :=
  finalizeAll nfkd
    (sortEntries cmp (files.foldl (upsertFile thumbnailSuffix fullSuffix) [])) counter0

/-! ### Manifest assembly (`normalizeAssetPath` and the relevant slice of
`main` in generate-gallery.mjs) -/

/-- The scheme part of `/^[a-zA-Z][a-zA-Z0-9+.-]*:/`: after the leading
letter, letters/digits/`+`/`.`/`-` until a `:`. -/
def schemeTail : List Char → Bool
  | [] => false
  | c :: cs =>
    if c = ':' then true
    else if c.isAlphanum ∨ c = '+' ∨ c = '.' ∨ c = '-' then schemeTail cs
    else false

/-- `isProbablyUrl`: a leading URL scheme or a protocol-relative `//`. -/
def isProbablyUrl (s : String) : Bool :=
  (match s.toList with
   | [] => false
   | c :: cs => c.isAlpha && schemeTail cs) || strStartsWith s "//"

/-- `value.replace(/^\.\/*/, '')`: one leading `.` followed by any run of
`/` is removed (note the regex also strips the dot of names like
`.hidden`, since the slash run may be empty). -/
def stripDotRun (s : String) : String :=
  match s.toList with
  | '.' :: rest => (rest.dropWhile (fun c => c = '/')).asString
  | _ => s

/-- Strip a leading `assets/` segment. -/
def stripAssetsLead (s : String) : String :=
  if strStartsWith s "assets/" then strDropN s 7 else s

/-- `toPosixPath`: split on the host path separator `sep` (`path.sep`) and
re-join with `/`. -/
def toPosixPath (sep : Char) (s : String) : String :=
  String.intercalate "/" (splitStrChar sep s)

/-- `normalizeAssetPath`: trim; empty stays empty; URLs pass through
unchanged; local values lose a leading dot-plus-slashes and a leading
`assets/` segment and are converted to forward-slash form. -/
def normalizeAssetPath (sep : Char) (value : String) : String :=
  let trimmed := trimStr value
  if trimmed = "" then ""
  else if isProbablyUrl trimmed then trimmed
  else toPosixPath sep (stripAssetsLead (stripDotRun trimmed))

/-- The CLI/environment option values reaching `main` (each `none` when
the flag/variable is absent). -/
structure GenOpts where
  archive : Option String
  heroEyebrow : Option String
  heroTitle : Option String
  heroSubtitle : Option String
  heroImage : Option String
  thumbnailSuffix : Option String
  fullSuffix : Option String
deriving DecidableEq, Repr

/-- The generated manifest (an absent optional field models the
`if (value) manifest.field = value` conditional assignment). -/
structure Manifest where
  photos : List Photo
  downloadArchive : Option String
  heroEyebrow : Option String
  heroTitle : Option String
  heroSubtitle : Option String
  heroImage : Option String
deriving DecidableEq, Repr

/-- `normalizeOption`: trim a string, `''` for a missing value. -/
def normalizeOption (v : Option String) : String := (v.map trimStr).getD ""

/-- `normalizeOptional`: trim a string, `undefined` stays `undefined`. -/
def normalizeOptional (v : Option String) : Option String := v.map trimStr

/-- JavaScript `a || b` on strings (empty is falsy). -/
def firstNonEmpty (a b : String) : String := if a ≠ "" then a else b

/-- `thumbnailSuffix = normalizeOptional(arg) ?? normalizeOptional(env) ??
DEFAULT_THUMBNAIL_SUFFIX` — note `??` keeps an explicit empty string. -/
def effThumbnailSuffix (args env : GenOpts) : String :=
  match normalizeOptional args.thumbnailSuffix with
  | some v => v
  | none =>
    match normalizeOptional env.thumbnailSuffix with
    | some v => v
    | none => "_small"

def effFullSuffix (args env : GenOpts) : String :=
  match normalizeOptional args.fullSuffix with
  | some v => v
  | none =>
    match normalizeOptional env.fullSuffix with
    | some v => v
    | none => "_large"

/-- The final hero image value: the normalized `--hero-image`/env value,
or, when that is empty, the `findDefaultHeroImage()` result
(`defaultHero`, the first existing `photos/hero.*` candidate path, `""`
when none exists — the filesystem probe is passed in as a value). -/
def heroImageFinal (sep : Char) (args env : GenOpts) (defaultHero : String) : String :=
  let heroImage := normalizeAssetPath sep
    (firstNonEmpty (normalizeOption args.heroImage) (normalizeOption env.heroImage))
  if heroImage = "" then defaultHero else heroImage

/-- `heroImageRelativePath`: the hero image when it is a non-empty local
path, `''` when it is empty or an absolute URL. -/
def heroRelPath (sep : Char) (args env : GenOpts) (defaultHero : String) : String :=
  let h := heroImageFinal sep args env defaultHero
  if h ≠ "" ∧ isProbablyUrl h = false then h else ""

/-- `filteredImageFiles`: drop the file whose `relativePath` equals the
local hero image path, when there is one. -/
def filteredFiles (sep : Char) (args env : GenOpts) (defaultHero : String)
    (files : List SrcFile) : List SrcFile :=
  let rel := heroRelPath sep args env defaultHero
  if rel ≠ "" then files.filter (fun f => f.relativePath != rel) else files

/-- The manifest-producing slice of `main`: option plumbing, hero-image
filtering, photo building, and the conditional top-level fields. -/
def runMain (nfkd : String → String) (cmp : String → String → Ordering) (sep : Char)
    (args env : GenOpts) (defaultHero : String) (files : List SrcFile) : Manifest :=
  let downloadArchive := firstNonEmpty (normalizeOption args.archive) (normalizeOption env.archive)
  let heroEyebrow := firstNonEmpty (normalizeOption args.heroEyebrow) (normalizeOption env.heroEyebrow)
  let heroTitle := firstNonEmpty (normalizeOption args.heroTitle) (normalizeOption env.heroTitle)
  let heroSubtitle :=
    firstNonEmpty (normalizeOption args.heroSubtitle) (normalizeOption env.heroSubtitle)
  let heroImage := heroImageFinal sep args env defaultHero
  let photos := buildPhotosFromFiles nfkd cmp (effThumbnailSuffix args env)
    (effFullSuffix args env) (filteredFiles sep args env defaultHero files) 1
  { photos := photos,
    downloadArchive := if downloadArchive ≠ "" then some downloadArchive else none,
    heroEyebrow := if heroEyebrow ≠ "" then some heroEyebrow else none,
    heroTitle := if heroTitle ≠ "" then some heroTitle else none,
    heroSubtitle := if heroSubtitle ≠ "" then some heroSubtitle else none,
    heroImage := if heroImage ≠ "" then some heroImage else none }

/-- C6 counterexample: with thumbnail suffix `s` and full suffix `sl`, the
files `zs.jpg` and `zsl.jpg` satisfy the claim's hypotheses — the first
base name contains the thumbnail suffix, the second contains the full
suffix, and both strip to the clean base name `z` — yet the reconciler
emits two PhotoEntries, because classification checks the thumbnail suffix
first and `zsl` also contains `s`. -/
theorem reconciler_pair_cex :
    strContains (basenameNoExt "zs.jpg") "s" = true ∧
    strContains (basenameNoExt "zsl.jpg") "sl" = true ∧
    stripMarker (basenameNoExt "zs.jpg") "s" = stripMarker (basenameNoExt "zsl.jpg") "sl" ∧
    stripMarker (basenameNoExt "zs.jpg") "s" ≠ "" ∧
    (buildPhotosFromFiles (fun s => s) compare "s" "sl"
      [{ relativeDir := "", fileName := "zs.jpg", relativePath := "photos/zs.jpg",
         dims := none },
       { relativeDir := "", fileName := "zsl.jpg", relativePath := "photos/zsl.jpg",
         dims := none }] 1).length = 2 := by
  exact ⟨by decide, by decide, by decide, by decide, by decide⟩

/-- C6 (amended): for two files in the same directory whose base names are
classified as thumbnail and full respectively — the first contains the
thumbnail suffix, the second contains the full suffix and does NOT contain
the thumbnail suffix (classification checks the thumbnail suffix first) —
and whose stripped names agree on a non-empty clean base name, the
reconciler emits exactly one PhotoEntry with the thumbnail-suffixed file
as `thumbnail`, the full-suffixed file as `full`, and the id derived from
the clean base name (kebab-cased `"{dir} {cleanBase}"` seed with the
sequential fallback); a single file matching neither suffix yields one
PhotoEntry whose `thumbnail` and `full` both equal that file's path. -/
theorem reconciler_pair_and_single :
    (∀ (nfkd : String → String) (cmp : String → String → Ordering)
        (tS fS d n1 n2 rp1 rp2 : String) (dm1 dm2 : Option (Nat × Nat)) (b1 b2 : String),
      basenameNoExt n1 = b1 → basenameNoExt n2 = b2 →
      tS ≠ "" → fS ≠ "" →
      strContains b1 tS = true →
      strContains b2 tS = false → strContains b2 fS = true →
      stripMarker b1 tS = stripMarker b2 fS →
      stripMarker b1 tS ≠ "" →
      (buildPhotosFromFiles nfkd cmp tS fS
          [{ relativeDir := d, fileName := n1, relativePath := rp1, dims := dm1 },
           { relativeDir := d, fileName := n2, relativePath := rp2, dims := dm2 }] 1).length = 1
      ∧ ∀ p ∈ buildPhotosFromFiles nfkd cmp tS fS
          [{ relativeDir := d, fileName := n1, relativePath := rp1, dims := dm1 },
           { relativeDir := d, fileName := n2, relativePath := rp2, dims := dm2 }] 1,
        p.thumbnail = rp1 ∧ p.full = rp2
        ∧ p.id = (if toKebabCase nfkd (String.intercalate " "
              ([d, stripMarker b1 tS].filter (fun s => s != ""))) = ""
            then photoIdOf 1
            else toKebabCase nfkd (String.intercalate " "
              ([d, stripMarker b1 tS].filter (fun s => s != "")))))
    ∧ (∀ (nfkd : String → String) (cmp : String → String → Ordering)
        (tS fS d n rp : String) (dm : Option (Nat × Nat)) (b : String),
      basenameNoExt n = b →
      (tS = "" ∨ strContains b tS = false) →
      (fS = "" ∨ strContains b fS = false) →
      (buildPhotosFromFiles nfkd cmp tS fS
          [{ relativeDir := d, fileName := n, relativePath := rp, dims := dm }] 1).length = 1
      ∧ ∀ p ∈ buildPhotosFromFiles nfkd cmp tS fS
          [{ relativeDir := d, fileName := n, relativePath := rp, dims := dm }] 1,
        p.thumbnail = rp ∧ p.full = rp) := by
  constructor
  · intro nfkd cmp tS fS d n1 n2 rp1 rp2 dm1 dm2 b1 b2 hbn1 hbn2 hT hF h1 h2t h2 hclean hne
    have hcls1 : classifyBaseName b1 tS fS = ⟨FileRole.thumbnail, stripMarker b1 tS⟩ := by
      unfold classifyBaseName
      rw [if_pos ⟨hT, h1⟩]
    have hcls2 : classifyBaseName b2 tS fS = ⟨FileRole.full, stripMarker b1 tS⟩ := by
      unfold classifyBaseName
      rw [if_neg (by rintro ⟨-, hcontra⟩; rw [h2t] at hcontra; exact Bool.false_ne_true hcontra),
        if_pos ⟨hF, h2⟩, hclean]
    constructor
    · simp only [buildPhotosFromFiles, upsertFile, hbn1, hbn2, hcls1, hcls2,
        hne, List.any_nil, List.any_cons, List.nil_append, List.map, applyFileToEntry,
        sortEntries, insertSorted, finalizeAll, finalizePhotoEntry, optOr,
        Bool.false_eq_true, if_false, beq_self_eq_true, Bool.or_self,
        if_true, ite_self, List.foldl_cons, List.foldl_nil]
      simp
    · intro p hp
      simp only [buildPhotosFromFiles, upsertFile, hbn1, hbn2, hcls1, hcls2,
        hne, List.any_nil, List.any_cons, List.nil_append, List.map, applyFileToEntry,
        sortEntries, insertSorted, finalizeAll, finalizePhotoEntry, optOr,
        Bool.false_eq_true, if_false, beq_self_eq_true, Bool.or_self,
        if_true, ite_self, List.foldl_cons, List.foldl_nil] at hp
      rw [List.mem_singleton] at hp
      subst hp
      exact ⟨rfl, rfl, rfl⟩
  · intro nfkd cmp tS fS d n rp dm b hbn hg1 hg2
    have hcls : classifyBaseName b tS fS = ⟨FileRole.generic, b⟩ := by
      unfold classifyBaseName
      rw [if_neg, if_neg]
      · rcases hg2 with h | h
        · rintro ⟨hc, -⟩; exact hc h
        · rintro ⟨-, hcontra⟩; rw [h] at hcontra; exact Bool.false_ne_true hcontra
      · rcases hg1 with h | h
        · rintro ⟨hc, -⟩; exact hc h
        · rintro ⟨-, hcontra⟩; rw [h] at hcontra; exact Bool.false_ne_true hcontra
    constructor
    · simp only [buildPhotosFromFiles, upsertFile, hbn, hcls,
        List.any_nil, List.any_cons, List.nil_append, List.map, applyFileToEntry,
        sortEntries, insertSorted, finalizeAll, finalizePhotoEntry, optOr,
        Bool.false_eq_true, if_false, ite_self, beq_self_eq_true, if_true,
        List.foldl_cons, List.foldl_nil]
      simp
    · intro p hp
      simp only [buildPhotosFromFiles, upsertFile, hbn, hcls,
        List.any_nil, List.any_cons, List.nil_append, List.map, applyFileToEntry,
        sortEntries, insertSorted, finalizeAll, finalizePhotoEntry, optOr,
        Bool.false_eq_true, if_false, ite_self, beq_self_eq_true, if_true,
        List.foldl_cons, List.foldl_nil] at hp
      rw [List.mem_singleton] at hp
      subst hp
      exact ⟨rfl, rfl⟩

/-- C6 witness: `beach_small.jpg` + `beach_large.jpg` reconcile to exactly
one PhotoEntry with id `beach`, and `sunset.jpg` alone reconciles to one
entry whose thumbnail and full coincide. -/
theorem reconciler_pair_and_single_witness :
    ((buildPhotosFromFiles (fun s => s) compare "_small" "_large"
        [{ relativeDir := "", fileName := "beach_small.jpg",
           relativePath := "photos/beach_small.jpg", dims := none },
         { relativeDir := "", fileName := "beach_large.jpg",
           relativePath := "photos/beach_large.jpg", dims := none }] 1).length = 1
      ∧ ∀ p ∈ buildPhotosFromFiles (fun s => s) compare "_small" "_large"
          [{ relativeDir := "", fileName := "beach_small.jpg",
             relativePath := "photos/beach_small.jpg", dims := none },
           { relativeDir := "", fileName := "beach_large.jpg",
             relativePath := "photos/beach_large.jpg", dims := none }] 1,
        p.thumbnail = "photos/beach_small.jpg" ∧ p.full = "photos/beach_large.jpg"
          ∧ p.id = "beach")
    ∧ ((buildPhotosFromFiles (fun s => s) compare "_small" "_large"
        [{ relativeDir := "", fileName := "sunset.jpg",
           relativePath := "photos/sunset.jpg", dims := none }] 1).length = 1
      ∧ ∀ p ∈ buildPhotosFromFiles (fun s => s) compare "_small" "_large"
          [{ relativeDir := "", fileName := "sunset.jpg",
             relativePath := "photos/sunset.jpg", dims := none }] 1,
        p.thumbnail = "photos/sunset.jpg" ∧ p.full = "photos/sunset.jpg") := by
  constructor
  · obtain ⟨hlen, hall⟩ := reconciler_pair_and_single.1 (fun s => s) compare
      "_small" "_large" "" "beach_small.jpg" "beach_large.jpg"
      "photos/beach_small.jpg" "photos/beach_large.jpg" none none
      "beach_small" "beach_large" (by decide) (by decide) (by decide) (by decide)
      (by decide) (by decide) (by decide) (by decide) (by decide)
    refine ⟨hlen, fun p hp => ?_⟩
    obtain ⟨ht, hf, hid⟩ := hall p hp
    refine ⟨ht, hf, ?_⟩
    rw [hid]
    decide
  · exact reconciler_pair_and_single.2 (fun s => s) compare
      "_small" "_large" "" "sunset.jpg" "photos/sunset.jpg" none "sunset"
      (by decide) (Or.inr (by decide)) (Or.inr (by decide))

/-! ### Every emitted photo path originates from an input file (for C9) -/

/-- All path fields of an accumulator entry point at some input file. -/
def entryPathsIn (files : List SrcFile) (e : GEntry) : Prop :=
  (∀ t, e.thumbnail = some t → ∃ f ∈ files, f.relativePath = t) ∧
  (∀ u, e.full = some u → ∃ f ∈ files, f.relativePath = u)

lemma applyFileToEntry_paths {files : List SrcFile} {e : GEntry} {rp : String}
    {dims : Option (Nat × Nat)} {role : FileRole}
    (hrp : ∃ f ∈ files, f.relativePath = rp)
    (he : entryPathsIn files e) :
    entryPathsIn files (applyFileToEntry e rp dims role) := by
  obtain ⟨het, hef⟩ := he
  cases role with
  | thumbnail =>
    refine ⟨?_, ?_⟩
    · intro t ht
      simp only [applyFileToEntry, Option.some.injEq] at ht
      exact ht ▸ hrp
    · intro u hu
      simp only [applyFileToEntry] at hu
      exact hef u hu
  | full =>
    refine ⟨?_, ?_⟩
    · intro t ht
      simp only [applyFileToEntry] at ht
      exact het t ht
    · intro u hu
      simp only [applyFileToEntry, Option.some.injEq] at hu
      exact hu ▸ hrp
  | generic =>
    simp only [applyFileToEntry]
    by_cases h1 : e.full = none
    · rw [if_pos h1]
      by_cases h2 : e.thumbnail = none
      · rw [if_pos (by simpa using h2)]
        refine ⟨?_, ?_⟩
        · intro t ht
          simp only [Option.some.injEq] at ht
          exact ht ▸ hrp
        · intro u hu
          simp only [Option.some.injEq] at hu
          exact hu ▸ hrp
      · rw [if_neg (by simpa using h2)]
        refine ⟨?_, ?_⟩
        · intro t ht
          simp only at ht
          exact het t ht
        · intro u hu
          simp only [Option.some.injEq] at hu
          exact hu ▸ hrp
    · rw [if_neg h1]
      by_cases h2 : e.thumbnail = none
      · rw [if_pos h2]
        refine ⟨?_, ?_⟩
        · intro t ht
          simp only [Option.some.injEq] at ht
          exact ht ▸ hrp
        · intro u hu
          simp only at hu
          exact hef u hu
      · rw [if_neg h2]
        exact ⟨het, hef⟩

lemma mem_ite_append_singleton {c : Prop} [Decidable c] {l : List GEntry} {n x : GEntry}
    (hx : x ∈ (if c then l else l ++ [n])) : x ∈ l ∨ x = n := by
  split at hx
  · exact Or.inl hx
  · rw [List.mem_append, List.mem_singleton] at hx
    exact hx

lemma upsertFile_paths {files : List SrcFile} {tS fS : String} {l : List GEntry}
    {f : SrcFile} (hf : f ∈ files) (hl : ∀ e ∈ l, entryPathsIn files e) :
    ∀ e ∈ upsertFile tS fS l f, entryPathsIn files e := by
  intro e he
  simp only [upsertFile] at he
  rw [List.mem_map] at he
  obtain ⟨x, hx, hxe⟩ := he
  have hx' : entryPathsIn files x := by
    rcases mem_ite_append_singleton hx with hmem | hnew
    · exact hl x hmem
    · subst hnew
      exact ⟨fun t ht => by simp at ht, fun u hu => by simp at hu⟩
  rw [← hxe]
  by_cases hkey : x.key = deriveEntryKey f.relativeDir
      (if (classifyBaseName (basenameNoExt f.fileName) tS fS).cleanBaseName = ""
        then basenameNoExt f.fileName
        else (classifyBaseName (basenameNoExt f.fileName) tS fS).cleanBaseName)
  · rw [if_pos hkey]
    exact applyFileToEntry_paths ⟨f, hf, rfl⟩ hx'
  · rw [if_neg hkey]
    exact hx'

lemma foldl_upsert_paths (files0 : List SrcFile) {tS fS : String} :
    ∀ (fl : List SrcFile) (l : List GEntry),
      (∀ f ∈ fl, f ∈ files0) → (∀ e ∈ l, entryPathsIn files0 e) →
      ∀ e ∈ fl.foldl (upsertFile tS fS) l, entryPathsIn files0 e := by
  intro fl
  induction fl with
  | nil =>
    intro l _ hl e he
    exact hl e he
  | cons f t ih =>
    intro l hfl hl e he
    simp only [List.foldl_cons] at he
    exact ih _ (fun g hg => hfl g (by simp [hg]))
      (upsertFile_paths (hfl f (by simp)) hl) e he

lemma mem_insertSorted {cmp : String → String → Ordering} {e : GEntry} :
    ∀ {l : List GEntry} {a : GEntry}, a ∈ insertSorted cmp e l → a = e ∨ a ∈ l := by
  intro l
  induction l with
  | nil =>
    intro a ha
    simp only [insertSorted, List.mem_singleton] at ha
    exact Or.inl ha
  | cons x t ih =>
    intro a ha
    simp only [insertSorted] at ha
    split at ha
    · rcases List.mem_cons.mp ha with h | h
      · exact Or.inl h
      · exact Or.inr h
    · rcases List.mem_cons.mp ha with h | h
      · exact Or.inr (by simp [h])
      · rcases ih h with h2 | h2
        · exact Or.inl h2
        · exact Or.inr (by simp [h2])

lemma mem_sortEntries {cmp : String → String → Ordering} :
    ∀ {l : List GEntry} {a : GEntry}, a ∈ sortEntries cmp l → a ∈ l := by
  have key : ∀ (l : List GEntry) (acc : List GEntry) (a : GEntry),
      a ∈ l.foldl (fun acc e => insertSorted cmp e acc) acc → a ∈ acc ∨ a ∈ l := by
    intro l
    induction l with
    | nil =>
      intro acc a ha
      exact Or.inl ha
    | cons x t ih =>
      intro acc a ha
      simp only [List.foldl_cons] at ha
      rcases ih _ a ha with h | h
      · rcases mem_insertSorted h with h2 | h2
        · exact Or.inr (by simp [h2])
        · exact Or.inl h2
      · exact Or.inr (by simp [h])
  intro l a ha
  rcases key l [] a ha with h | h
  · exact absurd h (List.not_mem_nil a)
  · exact h

lemma finalizePhotoEntry_fields {nfkd : String → String} {e : GEntry} {c : Nat} {p : Photo}
    (h : (finalizePhotoEntry nfkd e c).1 = some p) :
    (e.thumbnail = some p.thumbnail ∨ e.full = some p.thumbnail) ∧
    (e.full = some p.full ∨ e.thumbnail = some p.full) := by
  unfold finalizePhotoEntry at h
  cases het : e.thumbnail with
  | none =>
    cases hef : e.full with
    | none =>
      rw [het, hef] at h
      simp [optOr] at h
    | some u =>
      rw [het, hef] at h
      have h2 := Option.some.inj h
      subst h2
      exact ⟨Or.inr rfl, Or.inl rfl⟩
  | some t =>
    cases hef : e.full with
    | none =>
      rw [het, hef] at h
      have h2 := Option.some.inj h
      subst h2
      exact ⟨Or.inl rfl, Or.inr rfl⟩
    | some u =>
      rw [het, hef] at h
      have h2 := Option.some.inj h
      subst h2
      exact ⟨Or.inl rfl, Or.inl rfl⟩

lemma mem_finalizeAll {nfkd : String → String} :
    ∀ {l : List GEntry} {c : Nat} {p : Photo}, p ∈ finalizeAll nfkd l c →
      ∃ e ∈ l, ∃ c2, (finalizePhotoEntry nfkd e c2).1 = some p := by
  intro l
  induction l with
  | nil =>
    intro c p hp
    simp [finalizeAll] at hp
  | cons e t ih =>
    intro c p hp
    unfold finalizeAll at hp
    cases hfe : finalizePhotoEntry nfkd e c with
    | mk op c2 =>
      rw [hfe] at hp
      cases op with
      | some q =>
        rcases List.mem_cons.mp hp with h | h
        · subst h
          exact ⟨e, by simp, c, by rw [hfe]⟩
        · obtain ⟨e2, he2, c3, hc3⟩ := ih h
          exact ⟨e2, by simp [he2], c3, hc3⟩
      | none =>
        obtain ⟨e2, he2, c3, hc3⟩ := ih hp
        exact ⟨e2, by simp [he2], c3, hc3⟩

lemma buildPhotos_paths {nfkd : String → String} {cmp : String → String → Ordering}
    {tS fS : String} {files : List SrcFile} {c0 : Nat} :
    ∀ p ∈ buildPhotosFromFiles nfkd cmp tS fS files c0,
      (∃ f ∈ files, f.relativePath = p.thumbnail) ∧
      (∃ f ∈ files, f.relativePath = p.full) := by
  intro p hp
  unfold buildPhotosFromFiles at hp
  obtain ⟨e, he, c2, hfe⟩ := mem_finalizeAll hp
  have he2 : e ∈ files.foldl (upsertFile tS fS) [] := mem_sortEntries he
  have hep : entryPathsIn files e :=
    foldl_upsert_paths files files [] (fun f hf => hf) (by simp) e he2
  obtain ⟨hto, hfo⟩ := finalizePhotoEntry_fields hfe
  constructor
  · rcases hto with h | h
    · exact hep.1 _ h
    · exact hep.2 _ h
  · rcases hfo with h | h
    · exact hep.2 _ h
    · exact hep.1 _ h

/-- C9: when the final hero image (configured or auto-detected) is a
non-empty local path, the file with exactly that relative path is excluded
from the photo build — so no emitted photo references the hero image path
as its thumbnail or full — and when the hero image is empty or an absolute
URL, no file is excluded. -/
theorem hero_image_excluded_from_photos :
    (∀ (nfkd : String → String) (cmp : String → String → Ordering) (sep : Char)
        (args env : GenOpts) (defaultHero : String) (files : List SrcFile),
      heroImageFinal sep args env defaultHero ≠ "" →
      isProbablyUrl (heroImageFinal sep args env defaultHero) = false →
      (filteredFiles sep args env defaultHero files
          = files.filter (fun f => f.relativePath != heroImageFinal sep args env defaultHero))
      ∧ ∀ p ∈ (runMain nfkd cmp sep args env defaultHero files).photos,
          p.thumbnail ≠ heroImageFinal sep args env defaultHero ∧
          p.full ≠ heroImageFinal sep args env defaultHero)
    ∧ (∀ (sep : Char) (args env : GenOpts) (defaultHero : String) (files : List SrcFile),
      (heroImageFinal sep args env defaultHero = "" ∨
        isProbablyUrl (heroImageFinal sep args env defaultHero) = true) →
      filteredFiles sep args env defaultHero files = files) := by
  constructor
  · intro nfkd cmp sep args env defaultHero files hne hurl
    have hrel : heroRelPath sep args env defaultHero = heroImageFinal sep args env defaultHero := by
      unfold heroRelPath
      rw [if_pos ⟨hne, hurl⟩]
    have hfil : filteredFiles sep args env defaultHero files
        = files.filter (fun f => f.relativePath != heroImageFinal sep args env defaultHero) := by
      unfold filteredFiles
      rw [hrel, if_pos hne]
    refine ⟨hfil, ?_⟩
    intro p hp
    have hphotos : (runMain nfkd cmp sep args env defaultHero files).photos
        = buildPhotosFromFiles nfkd cmp (effThumbnailSuffix args env) (effFullSuffix args env)
            (filteredFiles sep args env defaultHero files) 1 := by
      simp only [runMain]
    rw [hphotos] at hp
    obtain ⟨⟨ft, hft, hftp⟩, ⟨ff, hff, hffp⟩⟩ := buildPhotos_paths p hp
    rw [hfil] at hft hff
    constructor
    · rw [← hftp]
      have := (List.mem_filter.mp hft).2
      intro hcontra
      rw [hcontra] at this
      simp at this
    · rw [← hffp]
      have := (List.mem_filter.mp hff).2
      intro hcontra
      rw [hcontra] at this
      simp at this
  · intro sep args env defaultHero files hcase
    have hrel : heroRelPath sep args env defaultHero = "" := by
      unfold heroRelPath
      rcases hcase with h | h
      · rw [if_neg (fun hc => hc.1 h)]
      · rw [if_neg (fun hc => by rw [h] at hc; exact absurd hc.2 (by simp))]
    unfold filteredFiles
    rw [hrel]
    simp

/-- C9 witness: with `--hero-image=photos/hero.jpg` and two files, the
hero file is filtered out and the remaining photo does not reference the
hero path. -/
theorem hero_image_excluded_from_photos_witness :
    heroImageFinal '/'
        { archive := none, heroEyebrow := none, heroTitle := none, heroSubtitle := none,
          heroImage := some "photos/hero.jpg", thumbnailSuffix := none, fullSuffix := none }
        { archive := none, heroEyebrow := none, heroTitle := none, heroSubtitle := none,
          heroImage := none, thumbnailSuffix := none, fullSuffix := none } "" ≠ "" ∧
    (filteredFiles '/'
        { archive := none, heroEyebrow := none, heroTitle := none, heroSubtitle := none,
          heroImage := some "photos/hero.jpg", thumbnailSuffix := none, fullSuffix := none }
        { archive := none, heroEyebrow := none, heroTitle := none, heroSubtitle := none,
          heroImage := none, thumbnailSuffix := none, fullSuffix := none } ""
        [{ relativeDir := "", fileName := "hero.jpg", relativePath := "photos/hero.jpg",
           dims := none },
         { relativeDir := "", fileName := "sunset.jpg", relativePath := "photos/sunset.jpg",
           dims := none }]
      = [{ relativeDir := "", fileName := "sunset.jpg", relativePath := "photos/sunset.jpg",
           dims := none }]) ∧
    ∀ p ∈ (runMain (fun s => s) compare '/'
        { archive := none, heroEyebrow := none, heroTitle := none, heroSubtitle := none,
          heroImage := some "photos/hero.jpg", thumbnailSuffix := none, fullSuffix := none }
        { archive := none, heroEyebrow := none, heroTitle := none, heroSubtitle := none,
          heroImage := none, thumbnailSuffix := none, fullSuffix := none } ""
        [{ relativeDir := "", fileName := "hero.jpg", relativePath := "photos/hero.jpg",
           dims := none },
         { relativeDir := "", fileName := "sunset.jpg", relativePath := "photos/sunset.jpg",
           dims := none }]).photos,
      p.thumbnail ≠ "photos/hero.jpg" ∧ p.full ≠ "photos/hero.jpg" := by
  have h := hero_image_excluded_from_photos.1 (fun s => s) compare '/'
    { archive := none, heroEyebrow := none, heroTitle := none, heroSubtitle := none,
      heroImage := some "photos/hero.jpg", thumbnailSuffix := none, fullSuffix := none }
    { archive := none, heroEyebrow := none, heroTitle := none, heroSubtitle := none,
      heroImage := none, thumbnailSuffix := none, fullSuffix := none } ""
    [{ relativeDir := "", fileName := "hero.jpg", relativePath := "photos/hero.jpg",
       dims := none },
     { relativeDir := "", fileName := "sunset.jpg", relativePath := "photos/sunset.jpg",
       dims := none }] (by decide) (by decide)
  refine ⟨by decide, by decide, ?_⟩
  intro p hp
  have h2 := h.2 p hp
  have hh : heroImageFinal '/'
      { archive := none, heroEyebrow := none, heroTitle := none, heroSubtitle := none,
        heroImage := some "photos/hero.jpg", thumbnailSuffix := none, fullSuffix := none }
      { archive := none, heroEyebrow := none, heroTitle := none, heroSubtitle := none,
        heroImage := none, thumbnailSuffix := none, fullSuffix := none } ""
      = "photos/hero.jpg" := by decide
  rw [hh] at h2
  exact h2

/-- C7 counterexample: the `--archive` value is written to the manifest
merely trimmed, not normalized (`./x.zip` stays `./x.zip` although its
normalization is `x.zip`); and the local-path normalization strips a lone
leading dot (`.hidden` becomes `hidden`), altering characters beyond a
leading `./`. -/
theorem manifest_archive_cex :
    (runMain (fun s => s) compare '/'
        { archive := some "./x.zip", heroEyebrow := none, heroTitle := none,
          heroSubtitle := none, heroImage := none, thumbnailSuffix := none,
          fullSuffix := none }
        { archive := none, heroEyebrow := none, heroTitle := none, heroSubtitle := none,
          heroImage := none, thumbnailSuffix := none, fullSuffix := none }
        "" []).downloadArchive = some "./x.zip" ∧
    normalizeAssetPath '/' "./x.zip" = "x.zip" ∧
    "./x.zip" ≠ "x.zip" ∧
    normalizeAssetPath '/' ".hidden" = "hidden" := by
  exact ⟨by decide, by decide, by decide, by decide⟩

/-- C7 (amended): only the hero image field is path-normalized; the
download archive field is written as the merely-trimmed CLI/environment
value.  The normalization itself passes URL-shaped values (a leading
scheme or protocol-relative `//`) through unchanged after trimming, and
rewrites every other non-empty value by stripping one leading `.` plus any
run of `/` (so `.hidden` also loses its dot), stripping a leading
`assets/` segment, and converting the host path separator to `/`. -/
theorem manifest_paths_amended :
    (∀ (nfkd : String → String) (cmp : String → String → Ordering) (sep : Char)
        (args env : GenOpts) (defaultHero : String) (files : List SrcFile) (s : String),
      (runMain nfkd cmp sep args env defaultHero files).downloadArchive = some s →
      s = firstNonEmpty (normalizeOption args.archive) (normalizeOption env.archive))
    ∧ (∀ (nfkd : String → String) (cmp : String → String → Ordering) (sep : Char)
        (args env : GenOpts) (defaultHero : String) (files : List SrcFile) (s : String),
      (runMain nfkd cmp sep args env defaultHero files).heroImage = some s →
      s = normalizeAssetPath sep (firstNonEmpty (normalizeOption args.heroImage)
            (normalizeOption env.heroImage))
        ∨ (normalizeAssetPath sep (firstNonEmpty (normalizeOption args.heroImage)
            (normalizeOption env.heroImage)) = "" ∧ s = defaultHero))
    ∧ (∀ (sep : Char) (v : String), isProbablyUrl (trimStr v) = true →
      normalizeAssetPath sep v = trimStr v)
    ∧ (∀ (sep : Char) (v : String), trimStr v ≠ "" → isProbablyUrl (trimStr v) = false →
      normalizeAssetPath sep v =
        toPosixPath sep (stripAssetsLead (stripDotRun (trimStr v)))) := by
  refine ⟨?_, ?_, ?_, ?_⟩
  · intro nfkd cmp sep args env defaultHero files s h
    simp only [runMain] at h
    split at h
    · exact (Option.some.inj h).symm
    · exact absurd h (by simp)
  · intro nfkd cmp sep args env defaultHero files s h
    simp only [runMain] at h
    split at h
    · have hs := (Option.some.inj h).symm
      subst hs
      unfold heroImageFinal
      by_cases hz : normalizeAssetPath sep (firstNonEmpty (normalizeOption args.heroImage)
          (normalizeOption env.heroImage)) = ""
      · rw [if_pos hz]
        exact Or.inr ⟨hz, rfl⟩
      · rw [if_neg hz]
        exact Or.inl rfl
    · exact absurd h (by simp)
  · intro sep v hurl
    unfold normalizeAssetPath
    have hne : ¬ trimStr v = "" := by
      intro hz
      rw [hz] at hurl
      exact Bool.false_ne_true ((by decide : isProbablyUrl "" = false) ▸ hurl)
    rw [if_neg hne, if_pos hurl]
  · intro sep v hne hurl
    unfold normalizeAssetPath
    rw [if_neg hne, if_neg (by rw [hurl]; exact Bool.false_ne_true)]

/-- C7 witness: a URL archive value passes through `normalizeAssetPath`
unchanged; a local hero value is normalized; and a `./`-prefixed archive
value reaches the manifest merely trimmed. -/
theorem manifest_paths_amended_witness :
    normalizeAssetPath '/' " https://cdn.example/a.zip " = "https://cdn.example/a.zip" ∧
    normalizeAssetPath '/' "assets/photos/h.jpg" = "photos/h.jpg" ∧
    ("./x.zip" : String)
      = firstNonEmpty (normalizeOption (some "./x.zip")) (normalizeOption none) := by
  have h1 := manifest_paths_amended.2.2.1 '/' " https://cdn.example/a.zip " (by decide)
  have h2 := manifest_paths_amended.2.2.2 '/' "assets/photos/h.jpg" (by decide) (by decide)
  have h3 := manifest_paths_amended.1 (fun s => s) compare '/'
    { archive := some "./x.zip", heroEyebrow := none, heroTitle := none,
      heroSubtitle := none, heroImage := none, thumbnailSuffix := none, fullSuffix := none }
    { archive := none, heroEyebrow := none, heroTitle := none, heroSubtitle := none,
      heroImage := none, thumbnailSuffix := none, fullSuffix := none }
    "" [] "./x.zip" (by decide)
  refine ⟨?_, ?_, h3⟩
  · rw [h1]
    decide
  · rw [h2]
    decide

end Gallery
